import Mathlib

/-!
Verification development for the conntrack-logger flow-attribution tool
(`nfct_logger.py`).  The Python 2 source is embedded shallowly: pure string
processing becomes Lean functions on `List Char` / `String`, filesystem reads
become explicit environments passed to the embedded functions, and Python
exceptions become an explicit `Except` error type.
-/

deriving instance DecidableEq for Except

namespace Nfct

/-- Python exception kinds reachable in the embedded code.  In Python 2,
`IOError` (raised by `open`) and `OSError` (raised by `os.stat`, `os.readlink`)
are distinct classes; both carry an errno.  `ENOENT` is errno 2. -/
inductive PyErr where
  | ioError (errno : Nat)
  | osError (errno : Nat)
  | nameError
  | keyError
  | valueError
  | typeError
  | indexError
  | assertionError
deriving DecidableEq, Repr

/-- Errno for a missing file or directory. -/
def ENOENT : Nat := 2

/-- Dynamically typed Python value as stored in `FlowInfo` fields: either a
string (such as the "-" placeholder or "?") or an integer (pid, uid, gid). -/
inductive PVal where
  | s (v : String)
  | n (v : Nat)
deriving DecidableEq, Repr

/-! ### Generic character-list helpers (Python string builtins) -/

/-- Split a character list at every separator admitted by `p`, keeping empty
pieces (like Python `str.split(sep)` for a one-character separator). -/
def splitP (p : Char → Bool) : List Char → List (List Char)
  | [] => [[]]
  | c :: cs =>
    if p c then [] :: splitP p cs
    else
      match splitP p cs with
      | [] => [[c]]
      | t :: ts => (c :: t) :: ts

/-- Python `str.split(sep)` for a one-character separator. -/
def splitC (sep : Char) : List Char → List (List Char) :=
  splitP (fun c => c = sep)

/-- Join pieces with a one-character separator; inverse of `splitC`. -/
def joinC (sep : Char) : List (List Char) → List Char
  | [] => []
  | [x] => x
  | x :: xs => x ++ sep :: joinC sep xs

/-- Python `str.split()` with no argument: split on whitespace runs and drop
empty fields. -/
def wsTokens (l : List Char) : List (List Char) :=
  (splitP Char.isWhitespace l).filter (fun t => !t.isEmpty)

/-- Python `str.split(sep, 1)` when the separator occurs: the text before the
first separator and all of the text after it.  `none` when absent. -/
def splitFirst (sep : Char) : List Char → Option (List Char × List Char)
  | [] => none
  | c :: cs =>
    if c = sep then some ([], cs)
    else
      match splitFirst sep cs with
      | none => none
      | some (a, b) => some (c :: a, b)

/-! ### Digit and hex codecs -/

/-- Numeric value of a decimal digit character. -/
def digitVal (c : Char) : Nat := c.toNat - 48

/-- Numeric value of a hex digit character (either case), or `none`. -/
def hexVal (c : Char) : Option Nat :=
  if 48 ≤ c.toNat ∧ c.toNat ≤ 57 then some (c.toNat - 48)
  else if 97 ≤ c.toNat ∧ c.toNat ≤ 102 then some (c.toNat - 87)
  else if 65 ≤ c.toNat ∧ c.toNat ≤ 70 then some (c.toNat - 55)
  else none

/-- Python 2 `str.decode("hex")`: pairs of hex digits to bytes; odd length or
a non-hex character raises `TypeError`. -/
def hexDecode : List Char → Except PyErr (List Nat)
  | [] => .ok []
  | [_] => .error .typeError
  | c1 :: c2 :: rest =>
    match hexVal c1, hexVal c2 with
    | some h, some l => (hexDecode rest).map (fun bs => (16 * h + l) :: bs)
    | _, _ => .error .typeError

/-- Python 2 `str.encode("hex")`: bytes to lowercase hex digit pairs. -/
def hexEncode : List Nat → List Char
  | [] => []
  | b :: bs => Nat.digitChar (b / 16) :: Nat.digitChar (b % 16) :: hexEncode bs

/-- Value of a decimal digit string (left fold, like C `inet_pton`). -/
def decVal (cs : List Char) : Nat :=
  cs.foldl (fun acc c => 10 * acc + digitVal c) 0

/-- Value of a hex digit string (left fold, like C `inet_pton`). -/
def groupVal (cs : List Char) : Nat :=
  cs.foldl (fun acc c => 16 * acc + (hexVal c).getD 0) 0

/-- Decimal rendering of one byte, modelling C `%u` printing for the byte
values 0..255 that `inet_ntop` for AF_INET emits. -/
def byteDec (n : Nat) : List Char :=
  if n < 10 then [Nat.digitChar n]
  else if n < 100 then [Nat.digitChar (n / 10), Nat.digitChar (n % 10)]
  else [Nat.digitChar (n / 100), Nat.digitChar (n / 10 % 10), Nat.digitChar (n % 10)]

/-- Lowercase hex rendering of one 16-bit group, modelling C `%x` printing for
the group values 0..65535 that `inet_ntop` for AF_INET6 emits. -/
def wordHex (n : Nat) : List Char :=
  if n < 16 then [Nat.digitChar n]
  else if n < 256 then [Nat.digitChar (n / 16), Nat.digitChar (n % 16)]
  else if n < 4096 then
    [Nat.digitChar (n / 256), Nat.digitChar (n / 16 % 16), Nat.digitChar (n % 16)]
  else
    [Nat.digitChar (n / 4096), Nat.digitChar (n / 256 % 16),
      Nat.digitChar (n / 16 % 16), Nat.digitChar (n % 16)]

/-! ### Platform address functions (socket.inet_ntop / inet_pton)

These are external platform collaborators of the source, modelled from the
spec's description of the textual address forms: dotted decimal for IPv4 and
canonical colon-hex (lowercase groups, leftmost longest zero run of length at
least two compressed to "::") for IPv6. -/

/-- Platform `inet_ntop` for AF_INET: a 4-byte address renders as dotted
decimal; any other input length is a `ValueError`. -/
def inet_ntop4 (bs : List Nat) : Except PyErr String :=
  if bs.length = 4 then .ok (String.mk (joinC '.' (bs.map byteDec)))
  else .error .valueError

/-- One 16-bit group per pair of bytes, big-endian within the pair. -/
def toWords : List Nat → List Nat
  | a :: b :: rest => (256 * a + b) :: toWords rest
  | _ => []

/-- Length of the run of zeros at the head of the list. -/
def zrun : List Nat → Nat
  | [] => 0
  | w :: ws => if w = 0 then zrun ws + 1 else 0

/-- Base index and length of the leftmost longest run of zeros. -/
def bestRun : List Nat → Nat × Nat
  | [] => (0, 0)
  | w :: ws =>
    let h := if w = 0 then zrun ws + 1 else 0
    let (b, l) := bestRun ws
    if l ≤ h then (0, h) else (b + 1, l)

/-- Canonical colon-hex rendering of 16 address bytes. -/
def fmt6 (bs : List Nat) : String :=
  let ws := toWords bs
  let gs := ws.map wordHex
  let (b, l) := bestRun ws
  if l < 2 then String.mk (joinC ':' gs)
  else String.mk (joinC ':' (gs.take b) ++ ':' :: ':' :: joinC ':' (gs.drop (b + l)))

/-- Platform `inet_ntop` for AF_INET6: a 16-byte address renders in canonical
colon-hex; any other input length is a `ValueError`. -/
def inet_ntop6 (bs : List Nat) : Except PyErr String :=
  if bs.length = 16 then .ok (fmt6 bs) else .error .valueError

/-- ASCII decimal digit test (the digits accepted by C `inet_pton`). -/
def isDigitC (c : Char) : Bool :=
  decide (48 ≤ c.toNat) && decide (c.toNat ≤ 57)

/-- Validity of one dotted-decimal octet for `inet_pton` AF_INET: nonempty,
all digits, no leading zero, value at most 255. -/
def validOctet (p : List Char) : Bool :=
  !p.isEmpty && p.all isDigitC &&
    (p.length == 1 || !(p.headD ' ' == '0')) && decide (decVal p ≤ 255)

/-- Platform `inet_pton` for AF_INET: exactly four dot-separated valid octets. -/
def inet_pton4 (s : String) : Option (List Nat) :=
  if (splitC '.' s.data).length = 4 ∧ (splitC '.' s.data).all validOctet = true then
    some ((splitC '.' s.data).map decVal)
  else none

/-- Validity of one colon-hex group: one to four hex digits. -/
def validGroup (g : List Char) : Bool :=
  !g.isEmpty && decide (g.length ≤ 4) && g.all (fun c => (hexVal c).isSome)

/-- Big-endian byte pair for each 16-bit group. -/
def wordBytes : List Nat → List Nat
  | [] => []
  | w :: ws => w / 256 :: w % 256 :: wordBytes ws

/-- Text before and after the first occurrence of a double colon, or `none`
when the text has no double colon. -/
def splitTwoColons : List Char → Option (List Char × List Char)
  | [] => none
  | c :: cs =>
    if c = ':' ∧ cs.headD ' ' = ':' then some ([], cs.tail)
    else (splitTwoColons cs).map (fun ab => (c :: ab.1, ab.2))

/-- Group lists on the two sides of a "::": when jointly at most seven valid
groups, the address words are the left groups, a zero run, and the right
groups. -/
def ptonSides (lg rg : List (List Char)) : Option (List Nat) :=
  if lg.length + rg.length ≤ 7 ∧ lg.all validGroup = true ∧ rg.all validGroup = true then
    some (wordBytes (lg.map groupVal ++
      List.replicate (8 - lg.length - rg.length) 0 ++ rg.map groupVal))
  else none

/-- Platform `inet_pton` for AF_INET6, restricted to the colon-hex textual
form the spec describes: eight colon-separated groups of one to four hex
digits, with at most one "::" standing for a run of one or more zero groups. -/
def inet_pton6 (s : String) : Option (List Nat) :=
  match splitTwoColons s.data with
  | none =>
    if (splitC ':' s.data).length = 8 ∧ (splitC ':' s.data).all validGroup = true then
      some (wordBytes ((splitC ':' s.data).map groupVal))
    else none
  | some (l, r) => ptonSides (if l.isEmpty then [] else splitC ':' l)
      (if r.isEmpty then [] else splitC ':' r)

/-! ### AddressCodec (`parse_ipv4`, `parse_ipv6` from the source) -/

/-- Source `parse_ipv4`: hex-decode, reverse the bytes, render via the
platform AF_INET `inet_ntop`. -/
def parse_ipv4 (enc : String) : Except PyErr String :=
  match hexDecode enc.data with
  | .error e => .error e
  | .ok bs => inet_ntop4 bs.reverse

/-- Elements of a list between positions `a` and `b`, clamped to the list,
modelling a Python slice `[a:b]`. -/
def sliceL (l : List α) (a b : Nat) : List α :=
  (l.drop a).take (b - a)

/-- Source `_endian` helper of `parse_ipv6`: `operator.itemgetter` of the
slices `[n*2:(n+1)*2]` for `n` in `[6, 7, 4, 5, 2, 3, 0, 1]`, joined. -/
def permSlices (l : List α) : List α :=
  sliceL l 12 14 ++ (sliceL l 14 16 ++ (sliceL l 8 10 ++ (sliceL l 10 12 ++
    (sliceL l 4 6 ++ (sliceL l 6 8 ++ (sliceL l 0 2 ++ sliceL l 2 4))))))

/-- Source `parse_ipv6`: hex-decode, reverse the bytes, apply the `_endian`
slice permutation, render via the platform AF_INET6 `inet_ntop`. -/
def parse_ipv6 (enc : String) : Except PyErr String :=
  match hexDecode enc.data with
  | .error e => .error e
  | .ok bs => inet_ntop6 (permSlices bs.reverse)

/-- Inverse of the kernel table encoding for IPv4: the hex blob whose
`parse_ipv4` decoding denotes the given dotted-decimal string. -/
def encode_ipv4 (s : String) : Option String :=
  (inet_pton4 s).map (fun bs => String.mk (hexEncode bs.reverse))

/-- Inverse of the kernel table encoding for IPv6: the hex blob whose
`parse_ipv6` decoding denotes the given colon-hex string. -/
def encode_ipv6 (s : String) : Option String :=
  (inet_pton6 s).map (fun bs => String.mk (hexEncode (permSlices bs).reverse))

/-- Word permutation {6,7,4,5,2,3,0,1} applied to the raw hex-character
stream, taking each word as four hex characters. -/
def permChunks (l : List α) : List α :=
  sliceL l 24 28 ++ (sliceL l 28 32 ++ (sliceL l 16 20 ++ (sliceL l 20 24 ++
    (sliceL l 8 12 ++ (sliceL l 12 16 ++ (sliceL l 0 4 ++ sliceL l 4 8))))))

/-- Reference IPv6 decoding in the words of the claim: apply the word
permutation {6,7,4,5,2,3,0,1} on the raw hex-character stream, then hex-decode
and byte-reverse, then render the 16 bytes. -/
def refDecodeV6 (enc : String) : Except PyErr String :=
  match hexDecode (permChunks enc.data) with
  | .error e => .error e
  | .ok bs => inet_ntop6 bs.reverse

/-! ### EventParser (`parse_event` from the source) -/

/-- Timestamp fields of the `when` element: year, month, day, hour, min, sec,
kept as raw numbers. -/
structure When where
  year : Nat
  month : Nat
  day : Nat
  hour : Nat
  minute : Nat
  sec : Nat
deriving DecidableEq, Repr

/-- One `meta` element of a conntrack event: its direction attribute and the
layer-3 and layer-4 sub-records. -/
structure EvMeta where
  direction : String
  l3proto : String
  l4proto : String
  src : String
  dst : String
  sport : Nat
  dport : Nat
deriving DecidableEq, Repr

/-- A parsed conntrack event tree: the flow type attribute, the `when`
element, and the `meta` elements in document order. -/
structure Ev where
  typ : String
  whenEl : When
  metas : List EvMeta
deriving DecidableEq, Repr

/-- Source `FlowData` namedtuple. -/
structure FlowData where
  ts : When
  proto : String
  src : String
  dst : String
  sport : Nat
  dport : Nat
deriving DecidableEq, Repr

/-- Python dict assignment `d[k] = v` on an association-list model: drop any
existing binding for the key and append the new one. -/
def dinsert {K V : Type} [DecidableEq K] (d : List (K × V)) (k : K) (v : V) :
    List (K × V) :=
  (d.filter (fun kv => decide (kv.1 ≠ k))) ++ [(k, v)]

/-- Python `dict.update` from a pair sequence into an empty dict: later pairs
override earlier ones. -/
def buildD {K V : Type} [DecidableEq K] (kvs : List (K × V)) : List (K × V) :=
  kvs.foldl (fun d kv => dinsert d kv.1 kv.2) []

/-- The `FlowData` built from one `meta` element, with the protocol pair
joined as in the source format string. -/
def metaFlowData (ts : When) (m : EvMeta) : FlowData :=
  { ts := ts, proto := m.l3proto ++ "/" ++ m.l4proto,
    src := m.src, dst := m.dst, sport := m.sport, dport := m.dport }

/-- Loop of `parse_event` over the `meta` elements: build the direction-keyed
dict, returning `none` (the source's early bare `return`) at the first
original/reply meta whose layer-4 protocol is neither tcp nor udp. -/
def buildFlowDict (ts : When) : List EvMeta → List (String × FlowData) →
    Option (List (String × FlowData))
  | [], d => some d
  | m :: ms, d =>
    if m.direction = "original" ∨ m.direction = "reply" then
      if m.l4proto = "tcp" ∨ m.l4proto = "udp" then
        buildFlowDict ts ms (dinsert d m.direction (metaFlowData ts m))
      else none
    else buildFlowDict ts ms d

/-- Symmetry invariant between the original and reply directions. -/
def symmetric (fo fr : FlowData) : Bool :=
  fo.proto == fr.proto && fo.src == fr.dst && fo.dst == fr.src &&
    fo.sport == fr.dport && fo.dport == fr.sport

/-- Source `parse_event`, over an already well-formed event tree: assert the
type attribute is "new", fold the meta elements (early skip on a non-tcp/udp
direction meta), require both directions (a missing one is the source's
`KeyError` from `itemgetter`), assert the symmetry invariant, and return the
original-direction record. -/
def parse_event (ev : Ev) : Except PyErr (Option FlowData) :=
  if ev.typ ≠ "new" then .error .assertionError
  else
    match buildFlowDict ev.whenEl ev.metas [] with
    | none => .ok none
    | some d =>
      match d.lookup "original", d.lookup "reply" with
      | some fo, some fr =>
        if symmetric fo fr then .ok (some fo) else .error .assertionError
      | _, _ => .error .keyError

/-! ### ConnectionTableScanner (`get_table_sk` from the source) -/

/-- The `_proto_conns` table of the source: protocol pair to kernel table
path. -/
def proto_conns : List (String × String) :=
  [("ipv4/tcp", "/proc/net/tcp"), ("ipv6/tcp", "/proc/net/tcp6"),
    ("ipv4/udp", "/proc/net/udp"), ("ipv6/udp", "/proc/net/udp6")]

/-- An endpoint as decoded from a table row: textual address and port. -/
abbrev Endpoint := String × Nat

/-- A canonically sorted endpoint pair, the join key of the caches. -/
abbrev EndpointPair := Endpoint × Endpoint

/-- Python 2 bytewise lexicographic ordering on character lists. -/
def listLt : List Char → List Char → Bool
  | [], [] => false
  | [], _ :: _ => true
  | _ :: _, [] => false
  | a :: as, b :: bs =>
    if a < b then true else if b < a then false else listLt as bs

/-- Python tuple ordering on (address, port) endpoints. -/
def epLt (x y : Endpoint) : Bool :=
  if x.1 = y.1 then decide (x.2 < y.2) else listLt x.1.data y.1.data

/-- Python `sorted` of a two-endpoint list: ascending and stable, so the
order swaps exactly when the second endpoint is strictly smaller. -/
def sortPair (a b : Endpoint) : EndpointPair :=
  if epLt b a then (b, a) else (a, b)

/-- Python `int(s, 16)` restricted to the plain hex-digit strings the kernel
tables hold: nonempty and all hex digits, else a ValueError. -/
def parseHexInt (cs : List Char) : Except PyErr Nat :=
  if cs.isEmpty then .error .valueError
  else if cs.all (fun c => (hexVal c).isSome) then .ok (groupVal cs)
  else .error .valueError

/-- The `proto.startswith("ipv4/")` codec selector of the source. -/
def isV4proto (proto : String) : Bool :=
  "ipv4/".data.isPrefixOf proto.data

/-- One endpoint field `address:port-in-hex`: split at the first colon (the
source's `split(":", 1)`; no colon leaves a one-element list whose unpacking
is a ValueError), decode the address with the family codec, parse the port
in base 16. -/
def parseEp (isV4 : Bool) (ep : List Char) : Except PyErr Endpoint :=
  match splitFirst ':' ep with
  | none => .error .valueError
  | some (ip, p) => do
    let addr ← (if isV4 then parse_ipv4 else parse_ipv6) (String.mk ip)
    let port ← parseHexInt p
    .ok (addr, port)

/-- One table row: split into whitespace fields, extract fields 1, 2 and 9
(the source's `itemgetter(1, 2, 9)`, an IndexError when any is absent),
parse the two endpoints, and sort them into the canonical pair; the socket
id field is kept as text. -/
def parseRow (isV4 : Bool) (line : String) : Except PyErr (EndpointPair × String) :=
  match (wsTokens line.data).get? 1, (wsTokens line.data).get? 2,
      (wsTokens line.data).get? 9 with
  | some a, some b, some sk => do
    let ea ← parseEp isV4 a
    let eb ← parseEp isV4 b
    .ok (sortPair ea eb, String.mk sk)
  | _, _, _ => .error .indexError

/-- The rows after the header, processed in order with generator semantics:
a failing row stops the scan, yielding the successful prefix and the error. -/
def scanRows (isV4 : Bool) : List String → List (EndpointPair × String) × Option PyErr
  | [] => ([], none)
  | r :: rs =>
    match parseRow isV4 r with
    | .error e => ([], some e)
    | .ok kv =>
      let (rest, e2) := scanRows isV4 rs
      (kv :: rest, e2)

/-- Source `get_table_sk` over the kernel table file of the protocol pair,
reading files through `fs` (path to list of lines).  A protocol outside
`_proto_conns` raises KeyError at the first pull; an empty file ends the
generator at the header `next` (Python 2 generator semantics); otherwise the
header line is dropped and the remaining rows are scanned with the codec
chosen by the `ipv4/` prefix of the protocol.  The result is the yielded
prefix together with the error that stopped the generator, if any. -/
def get_table_sk (proto : String) (fs : String → List String) :
    List (EndpointPair × String) × Option PyErr :=
  match proto_conns.lookup proto with
  | none => ([], some .keyError)
  | some path =>
    match fs path with
    | [] => ([], none)
    | _hdr :: rows => scanRows (isV4proto proto) rows

/-! ### SocketOwnerScanner (`get_table_links` from the source) -/

/-- One `/proc/<pid>/fd/<fd>` path met during the glob walk, with the
outcome of `os.readlink` on it: the link target, or the OSError errno the
read raised.  The glob pattern fixes the path shape, so the pid that the
source re-extracts from the path with a regex is carried directly. -/
structure FdEntry where
  pid : Nat
  fd : Nat
  link : Except Nat String
deriving DecidableEq, Repr

/-- Regex `socket:` followed by a bracketed nonempty inode text free of a
closing bracket, anchored at both ends: the source's link pattern. -/
def sockMatch (s : String) : Option String :=
  if 10 ≤ s.data.length ∧ s.data.take 8 = "socket:[".data ∧
      s.data.getLast? = some ']' ∧
      (s.data.drop 8).dropLast.all (fun c => decide (c ≠ ']')) then
    some (String.mk ((s.data.drop 8).dropLast))
  else none

/-- First loop of `get_table_links`: read every link in order, silently
skipping entries whose readlink failed with ENOENT and re-raising any other
errno. -/
def collectLinks : List FdEntry → Except PyErr (List (Nat × String))
  | [] => .ok []
  | e :: es =>
    match e.link with
    | .error n => if n ≠ ENOENT then .error (.osError n) else collectLinks es
    | .ok l => (collectLinks es).map (fun rest => (e.pid, l) :: rest)

/-- Source `get_table_links` over the fd entries alive at scan time: collect
the readable links (first loop), then yield the socket inode text with the
owning pid for every link matching the socket pattern (second loop).  An
error in the first loop surfaces before anything is yielded. -/
def get_table_links (entries : List FdEntry) : Except PyErr (List (String × Nat)) :=
  match collectLinks entries with
  | .error e => .error e
  | .ok pairs =>
    .ok (pairs.filterMap (fun pl => (sockMatch pl.2).map (fun inode => (inode, pl.1))))

/-! ### ProcessInfoResolver (`pid_info`, `FlowInfo` from the source) -/

/-- Reads of the per-process filesystem for one pid: the file reads used by
`pid_info` (each an errno on failure) and the `os.stat` of the process
directory giving uid and gid (an errno on failure). -/
structure ProcFS where
  file : Nat → String → Except Nat String
  statDir : Nat → Except Nat (Nat × Nat)

/-- Source `pid_info`: `open("/proc/<pid>/<entry>").read()`.  In Python 2 a
failing `open` raises `IOError` (not `OSError`). -/
def pid_info (fsys : ProcFS) (pid : Nat) (entry : String) : Except PyErr String :=
  match fsys.file pid entry with
  | .error n => .error (.ioError n)
  | .ok s => .ok s

/-- Source `FlowInfo` namedtuple fields. -/
structure FlowInfo where
  pid : PVal
  uid : PVal
  gid : PVal
  cmdline : PVal
  service : PVal
deriving DecidableEq, Repr

/-- The `_nx = FlowInfo()` sentinel default of `get_flow_info`. -/
def nxInfo : FlowInfo := ⟨.s "?", .s "-", .s "-", .s "-", .s "-"⟩

/-- Python `str.splitlines` restricted to newline separators: split on
newlines, with no empty final piece for a trailing newline. -/
def splitlines (l : List Char) : List (List Char) :=
  if l.isEmpty then []
  else if l.getLast? = some '\n' then (splitC '\n' l).dropLast
  else splitC '\n' l

/-- Python `str.strip`: drop whitespace from both ends. -/
def pyStrip (l : List Char) : List Char :=
  ((l.dropWhile Char.isWhitespace).reverse.dropWhile Char.isWhitespace).reverse

/-- Python `str.replace` of the NUL character by a space. -/
def nulToSpace (l : List Char) : List Char :=
  l.map (fun c => if c = Char.ofNat 0 then ' ' else c)

/-- The service-extraction loop of `FlowInfo.__new__` over the cgroup lines:
split each line on colons (reading the second field of a line without one is
an IndexError); at the first line whose second field has "name=" as a prefix,
return the third field (an IndexError when the line has no third field);
otherwise continue, and report no match after the last line. -/
def serviceScan : List (List Char) → Except PyErr (Option (List Char))
  | [] => .ok none
  | line :: rest =>
    match (splitC ':' line).get? 1 with
    | none => .error .indexError
    | some f2 =>
      if "name=".data.isPrefixOf f2 then
        match (splitC ':' line).get? 2 with
        | none => .error .indexError
        | some f3 => .ok (some f3)
      else serviceScan rest

/-- Source `FlowInfo.__new__`.  With a pid, the try block reads cmdline and
cgroup through `pid_info` (Python 2 `open` raises `IOError`, which the
`except OSError` clause does not catch, so a read failure propagates) and
stats the process directory for uid and gid (the `except OSError` handler
then evaluates `err.errno`, but `err` is unbound in that scope, so any caught
`OSError` surfaces as a `NameError`).  After the try block, cmdline has NULs
replaced by spaces and is stripped unless it is the "-" placeholder, and the
service label is extracted from the cgroup lines unless they are the "-"
placeholder, falling back to the raw cgroup text when no line matches.  With
no pid (`FlowInfo()`), every field is the placeholder and the pid renders as
"?" (`pid or "?"`, so a zero pid also renders as "?"). -/
def FlowInfo_new (pid : Option Nat) (fsys : ProcFS) : Except PyErr FlowInfo :=
  match pid with
  | none => .ok nxInfo
  | some p =>
    match pid_info fsys p "cmdline" with
    | .error e => .error e
    | .ok cml =>
      match pid_info fsys p "cgroup" with
      | .error e => .error e
      | .ok cgr =>
        match fsys.statDir p with
        | .error _ => .error .nameError
        | .ok (uid, gid) =>
          match (if cgr = "-" then .ok none else serviceScan (splitlines cgr.data) :
              Except PyErr (Option (List Char))) with
          | .error e => .error e
          | .ok found =>
            .ok ⟨if p = 0 then .s "?" else .n p, .n uid, .n gid,
              .s (if cml = "-" then cml else String.mk (pyStrip (nulToSpace cml.data))),
              .s (match found with
                | some f3 => String.mk f3
                | none => cgr)⟩

/-! ### FlowAttributionCache (`get_flow_info` from the source) -/

/-- Python `int(s)` restricted to the plain decimal digit strings the stat
file holds: nonempty and all digits, else a ValueError. -/
def parseDecInt (cs : List Char) : Except PyErr Nat :=
  if cs.isEmpty then .error .valueError
  else if cs.all isDigitC then .ok (decVal cs)
  else .error .valueError

/-- Python `del d[k]` on the association-list dict model. -/
def dremove {K V : Type} [DecidableEq K] (d : List (K × V)) (k : K) : List (K × V) :=
  d.filter (fun kv => decide (kv.1 ≠ k))

/-- The per-protocol member caches `_cache[proto]["sk" | "links" | "info"]`. -/
structure ProtoCache where
  sk : List (EndpointPair × String)
  links : List (String × Nat)
  info : List (Nat × (Nat × FlowInfo))
deriving DecidableEq, Repr

/-- A fresh `defaultdict(dict)` member. -/
def emptyPC : ProtoCache := ⟨[], [], []⟩

/-- The whole `_cache` default argument: protocol pair to member caches. -/
abbrev GCache := List (String × ProtoCache)

/-- The filesystem environment `get_flow_info` reads through its scans: the
kernel table files, the fd entries, and the per-process filesystem. -/
structure Env where
  fs : String → List String
  fds : List FdEntry
  proc : ProcFS

/-- Result of one `get_flow_info` call: the returned record or the raised
exception, the updated cache, and how many connection-table scans, fd-link
scans, and resolver constructions ran during the call. -/
structure GFRes where
  res : Except PyErr FlowInfo
  cache : GCache
  skScans : Nat
  linkScans : Nat
  resolves : Nat
deriving DecidableEq, Repr

/-- Stage 3 of `get_flow_info`: read the start-time fingerprint from field
21 of the stat file (the `except OSError` around it cannot fire for the
`IOError` that a failing Python 2 `open` raises, so a read failure
propagates; the field access and `int` conversions are outside the `try`),
evict the cached entry when the fingerprint changed, resolve and store on a
miss, and return the cached record. -/
def infoStage (pid : Nat) (env : Env) (cache0 : GCache) (proto : String)
    (sk1 : List (EndpointPair × String)) (links1 : List (String × Nat))
    (info0 : List (Nat × (Nat × FlowInfo))) (nSk nLk : Nat) : GFRes :=
  match pid_info env.proc pid "stat" with
  | .error (.osError _) =>
    ⟨.ok nxInfo, dinsert cache0 proto ⟨sk1, links1, info0⟩, nSk, nLk, 0⟩
  | .error e => ⟨.error e, dinsert cache0 proto ⟨sk1, links1, info0⟩, nSk, nLk, 0⟩
  | .ok statstr =>
    match (wsTokens statstr.data).get? 21 with
    | none => ⟨.error .indexError, dinsert cache0 proto ⟨sk1, links1, info0⟩, nSk, nLk, 0⟩
    | some f21 =>
      match parseDecInt f21 with
      | .error e => ⟨.error e, dinsert cache0 proto ⟨sk1, links1, info0⟩, nSk, nLk, 0⟩
      | .ok pid_ts =>
        match info0.lookup pid with
        | some (info_ts, info1) =>
          if pid_ts ≠ info_ts then
            match FlowInfo_new (some pid) env.proc with
            | .error e =>
              ⟨.error e, dinsert cache0 proto ⟨sk1, links1, dremove info0 pid⟩, nSk, nLk, 1⟩
            | .ok fresh =>
              ⟨.ok fresh, dinsert cache0 proto
                ⟨sk1, links1, dinsert (dremove info0 pid) pid (pid_ts, fresh)⟩, nSk, nLk, 1⟩
          else
            ⟨.ok info1, dinsert cache0 proto ⟨sk1, links1, info0⟩, nSk, nLk, 0⟩
        | none =>
          match FlowInfo_new (some pid) env.proc with
          | .error e =>
            ⟨.error e, dinsert cache0 proto ⟨sk1, links1, info0⟩, nSk, nLk, 1⟩
          | .ok fresh =>
            ⟨.ok fresh, dinsert cache0 proto
              ⟨sk1, links1, dinsert info0 pid (pid_ts, fresh)⟩, nSk, nLk, 1⟩

/-- The lookup retried on the (possibly rebuilt) links cache: a miss is the
logged sentinel return, a hit continues to stage 3. -/
def linksRetry (sk : String) (env : Env) (cache0 : GCache) (proto : String)
    (sk1 : List (EndpointPair × String)) (info0 : List (Nat × (Nat × FlowInfo)))
    (nSk : Nat) (links1 : List (String × Nat)) (nLk : Nat) : GFRes :=
  match links1.lookup sk with
  | none => ⟨.ok nxInfo, dinsert cache0 proto ⟨sk1, links1, info0⟩, nSk, nLk, 0⟩
  | some pid => infoStage pid env cache0 proto sk1 links1 info0 nSk nLk

/-- Stage 2 of `get_flow_info`: on a miss of the socket id, clear and
rebuild the links cache from one fd-link scan, then retry once (an error in
the scan surfaces before anything is yielded, leaving the cache cleared). -/
def linksStage (sk : String) (env : Env) (cache0 : GCache) (proto : String)
    (sk1 : List (EndpointPair × String)) (links0 : List (String × Nat))
    (info0 : List (Nat × (Nat × FlowInfo))) (nSk : Nat) : GFRes :=
  if (links0.lookup sk).isSome then
    linksRetry sk env cache0 proto sk1 info0 nSk links0 0
  else
    match get_table_links env.fds with
    | .error e => ⟨.error e, dinsert cache0 proto ⟨sk1, [], info0⟩, nSk, 1, 0⟩
    | .ok lst => linksRetry sk env cache0 proto sk1 info0 nSk (buildD lst) 1

/-- The lookup retried on the (possibly rebuilt) sk cache: a miss is the
logged sentinel return, a hit continues to stage 2. -/
def skRetry (flow : FlowData) (ip_key : EndpointPair) (env : Env) (cache0 : GCache)
    (sk1 : List (EndpointPair × String)) (links0 : List (String × Nat))
    (info0 : List (Nat × (Nat × FlowInfo))) (nSk : Nat) : GFRes :=
  match sk1.lookup ip_key with
  | none => ⟨.ok nxInfo, dinsert cache0 flow.proto ⟨sk1, links0, info0⟩, nSk, 0, 0⟩
  | some sk => linksStage sk env cache0 flow.proto sk1 links0 info0 nSk

/-- Source `get_flow_info`: fetch the protocol's member caches (`setdefault`
creates empty ones), compute the flow's endpoint-pair key, and on a miss of
the key clear and rebuild the sk cache from one connection-table scan, then
retry once (a scan error surfaces after the yielded prefix was inserted into
the cleared cache); the later stages follow. -/
def get_flow_info (flow : FlowData) (cache0 : GCache) (env : Env) : GFRes :=
  if (((cache0.lookup flow.proto).getD emptyPC).sk.lookup
      (sortPair (flow.src, flow.sport) (flow.dst, flow.dport))).isSome then
    skRetry flow (sortPair (flow.src, flow.sport) (flow.dst, flow.dport)) env cache0
      ((cache0.lookup flow.proto).getD emptyPC).sk
      ((cache0.lookup flow.proto).getD emptyPC).links
      ((cache0.lookup flow.proto).getD emptyPC).info 0
  else
    match get_table_sk flow.proto env.fs with
    | (rows, some e) =>
      ⟨.error e, dinsert cache0 flow.proto ⟨buildD rows,
        ((cache0.lookup flow.proto).getD emptyPC).links,
        ((cache0.lookup flow.proto).getD emptyPC).info⟩, 1, 0, 0⟩
    | (rows, none) =>
      skRetry flow (sortPair (flow.src, flow.sport) (flow.dst, flow.dport)) env cache0
        (buildD rows)
        ((cache0.lookup flow.proto).getD emptyPC).links
        ((cache0.lookup flow.proto).getD emptyPC).info 1

/-! ## Theorems -/

/-- Two characters with the same (valid) code point are equal. -/
theorem char_eq_of_toNat (c : Char) (n : Nat) (h : c.toNat = n)
    (d : Char) (hd : d.toNat = n) : c = d := by
  apply Char.eq_of_val_eq
  apply UInt32.eq_of_toBitVec_eq
  apply BitVec.eq_of_toNat_eq
  show c.toNat = d.toNat
  omega

/-- Rendering the value of an ASCII decimal digit gives the digit back. -/
theorem digitChar_digitVal (c : Char) (h1 : 48 ≤ c.toNat) (h2 : c.toNat ≤ 57) :
    Nat.digitChar (digitVal c) = c := by
  have h : ∀ m : Nat, c.toNat = m → Nat.digitChar (m - 48) = c := by
    intro m hm
    rw [hm] at h1 h2
    interval_cases m <;> exact (char_eq_of_toNat c _ hm _ (by decide)).symm
  exact h c.toNat rfl

/-- Hex value of the rendering of a hex digit. -/
theorem hexVal_digitChar (k : Nat) (hk : k < 16) : hexVal (Nat.digitChar k) = some k := by
  interval_cases k <;> decide

/-- A hex digit has value below 16. -/
theorem hexVal_lt {c : Char} {v : Nat} (h : hexVal c = some v) : v < 16 := by
  unfold hexVal at h
  split_ifs at h <;> simp_all <;> omega

/-- Successful hex decoding consumes two characters per byte. -/
theorem hexDecode_length {cs : List Char} {bs : List Nat} (h : hexDecode cs = .ok bs) :
    cs.length = 2 * bs.length := by
  induction cs using hexDecode.induct generalizing bs with
  | case1 =>
    simp only [hexDecode] at h
    cases h
    rfl
  | case2 c => simp [hexDecode] at h
  | case3 c1 c2 rest hv lv hv2 hv1 ih =>
    simp only [hexDecode, hv1, hv2] at h
    cases hr : hexDecode rest with
    | error e => rw [hr] at h; simp [Except.map] at h
    | ok bs2 =>
      rw [hr] at h
      simp only [Except.map] at h
      cases h
      have hlen := ih hr
      simp only [List.length_cons]
      omega
  | case4 c1 c2 rest hnone =>
    simp only [hexDecode] at h
    simp at h

/-- Bytes produced by hex decoding are below 256. -/
theorem hexDecode_lt {cs : List Char} {bs : List Nat} (h : hexDecode cs = .ok bs) :
    ∀ b ∈ bs, b < 256 := by
  induction cs using hexDecode.induct generalizing bs with
  | case1 =>
    simp only [hexDecode] at h
    cases h
    simp
  | case2 c => simp [hexDecode] at h
  | case3 c1 c2 rest hv lv hv2 hv1 ih =>
    simp only [hexDecode, hv1, hv2] at h
    cases hr : hexDecode rest with
    | error e => rw [hr] at h; simp [Except.map] at h
    | ok bs2 =>
      rw [hr] at h
      simp only [Except.map] at h
      cases h
      intro b hb
      rcases List.mem_cons.mp hb with hb | hb
      · have l1 := hexVal_lt hv1
        have l2 := hexVal_lt hv2
        omega
      · exact ih hr b hb
  | case4 c1 c2 rest hnone =>
    simp only [hexDecode] at h
    simp at h

/-- Hex decoding distributes over appending after an even-length prefix. -/
theorem hexDecode_append {xs : List Char} {bs : List Nat} (ys : List Char)
    (h : hexDecode xs = .ok bs) :
    hexDecode (xs ++ ys) = (hexDecode ys).map (fun cs => bs ++ cs) := by
  induction xs using hexDecode.induct generalizing bs with
  | case1 =>
    simp only [hexDecode] at h
    cases h
    simp only [List.nil_append]
    cases hexDecode ys <;> simp [Except.map]
  | case2 c => simp [hexDecode] at h
  | case3 c1 c2 rest hv lv hv2 hv1 ih =>
    simp only [hexDecode, hv1, hv2] at h
    cases hr : hexDecode rest with
    | error e => rw [hr] at h; simp [Except.map] at h
    | ok bs2 =>
      rw [hr] at h
      simp only [Except.map] at h
      cases h
      simp only [List.cons_append]
      simp only [hexDecode, hv1, hv2]
      rw [ih hr]
      cases hexDecode ys <;> simp [Except.map]
  | case4 c1 c2 rest hnone =>
    simp only [hexDecode] at h
    simp at h

/-- Hex decoding commutes with dropping byte pairs. -/
theorem hexDecode_drop {cs : List Char} {bs : List Nat} (h : hexDecode cs = .ok bs)
    (k : Nat) : hexDecode (cs.drop (2 * k)) = .ok (bs.drop k) := by
  induction k generalizing cs bs with
  | zero => simpa using h
  | succ k ih =>
    match cs with
    | [] =>
      simp only [hexDecode] at h
      cases h
      simp [hexDecode]
    | [c] => simp [hexDecode] at h
    | c1 :: c2 :: rest =>
      simp only [hexDecode] at h
      cases hv1 : hexVal c1 with
      | none => rw [hv1] at h; simp at h
      | some a =>
        cases hv2 : hexVal c2 with
        | none => rw [hv1, hv2] at h; simp at h
        | some b =>
          rw [hv1, hv2] at h
          cases hr : hexDecode rest with
          | error e => rw [hr] at h; simp [Except.map] at h
          | ok bs2 =>
            rw [hr] at h
            simp only [Except.map] at h
            cases h
            have e1 : 2 * (k + 1) = 2 * k + 1 + 1 := by omega
            rw [e1]
            simp only [List.drop_succ_cons]
            exact ih hr

/-- Hex decoding commutes with taking byte pairs. -/
theorem hexDecode_take {cs : List Char} {bs : List Nat} (h : hexDecode cs = .ok bs)
    (k : Nat) : hexDecode (cs.take (2 * k)) = .ok (bs.take k) := by
  induction k generalizing cs bs with
  | zero => simp [hexDecode]
  | succ k ih =>
    match cs with
    | [] =>
      simp only [hexDecode] at h
      cases h
      simp [hexDecode]
    | [c] => simp [hexDecode] at h
    | c1 :: c2 :: rest =>
      simp only [hexDecode] at h
      cases hv1 : hexVal c1 with
      | none => rw [hv1] at h; simp at h
      | some a =>
        cases hv2 : hexVal c2 with
        | none => rw [hv1, hv2] at h; simp at h
        | some b =>
          rw [hv1, hv2] at h
          cases hr : hexDecode rest with
          | error e => rw [hr] at h; simp [Except.map] at h
          | ok bs2 =>
            rw [hr] at h
            simp only [Except.map] at h
            cases h
            have e1 : 2 * (k + 1) = 2 * k + 1 + 1 := by omega
            rw [e1]
            simp only [List.take_succ_cons]
            simp only [hexDecode, hv1, hv2]
            rw [ih hr]
            simp [Except.map]

/-- Hex decoding maps character slices at even offsets to byte slices. -/
theorem hexDecode_sliceL {cs : List Char} {bs : List Nat} (h : hexDecode cs = .ok bs)
    (a b : Nat) : hexDecode (sliceL cs (2 * a) (2 * b)) = .ok (sliceL bs a b) := by
  unfold sliceL
  have e1 : 2 * b - 2 * a = 2 * (b - a) := by omega
  rw [e1]
  exact hexDecode_take (hexDecode_drop h a) (b - a)

/-- Hex decoding turns the character-level word permutation into the
byte-level slice permutation of the source. -/
theorem hexDecode_permChunks {cs : List Char} {bs : List Nat}
    (h : hexDecode cs = .ok bs) :
    hexDecode (permChunks cs) = .ok (permSlices bs) := by
  have s1 := hexDecode_sliceL h 12 14
  have s2 := hexDecode_sliceL h 14 16
  have s3 := hexDecode_sliceL h 8 10
  have s4 := hexDecode_sliceL h 10 12
  have s5 := hexDecode_sliceL h 4 6
  have s6 := hexDecode_sliceL h 6 8
  have s7 := hexDecode_sliceL h 0 2
  have s8 := hexDecode_sliceL h 2 4
  norm_num at s1 s2 s3 s4 s5 s6 s7 s8
  unfold permChunks permSlices
  rw [hexDecode_append _ s1, hexDecode_append _ s2, hexDecode_append _ s3,
    hexDecode_append _ s4, hexDecode_append _ s5, hexDecode_append _ s6,
    hexDecode_append _ s7, s8]
  simp [Except.map]

/-- A list of length 16 is a sixteen-element literal. -/
theorem length_eq_sixteen {α : Type} {l : List α} (h : l.length = 16) :
    ∃ x0 x1 x2 x3 x4 x5 x6 x7 x8 x9 x10 x11 x12 x13 x14 x15 : α, l = [x0, x1, x2, x3, x4, x5, x6, x7, x8, x9, x10, x11, x12, x13, x14, x15] := by
  rcases l with _ | ⟨x0, l⟩
  · simp at h
  rcases l with _ | ⟨x1, l⟩
  · simp at h
  rcases l with _ | ⟨x2, l⟩
  · simp at h
  rcases l with _ | ⟨x3, l⟩
  · simp at h
  rcases l with _ | ⟨x4, l⟩
  · simp at h
  rcases l with _ | ⟨x5, l⟩
  · simp at h
  rcases l with _ | ⟨x6, l⟩
  · simp at h
  rcases l with _ | ⟨x7, l⟩
  · simp at h
  rcases l with _ | ⟨x8, l⟩
  · simp at h
  rcases l with _ | ⟨x9, l⟩
  · simp at h
  rcases l with _ | ⟨x10, l⟩
  · simp at h
  rcases l with _ | ⟨x11, l⟩
  · simp at h
  rcases l with _ | ⟨x12, l⟩
  · simp at h
  rcases l with _ | ⟨x13, l⟩
  · simp at h
  rcases l with _ | ⟨x14, l⟩
  · simp at h
  rcases l with _ | ⟨x15, l⟩
  · simp at h
  rcases l with _ | ⟨y, l⟩
  · exact ⟨x0, x1, x2, x3, x4, x5, x6, x7, x8, x9, x10, x11, x12, x13, x14, x15, rfl⟩
  · simp at h

/-- The slice permutation commutes with reversal on 16-element lists. -/
theorem permSlices_reverse {α : Type} {l : List α} (h : l.length = 16) :
    permSlices l.reverse = (permSlices l).reverse := by
  obtain ⟨x0, x1, x2, x3, x4, x5, x6, x7, x8, x9, x10, x11, x12, x13, x14, x15, rfl⟩ := length_eq_sixteen h
  rfl

/-- The slice permutation is an involution on 16-element lists. -/
theorem permSlices_permSlices {α : Type} {l : List α} (h : l.length = 16) :
    permSlices (permSlices l) = l := by
  obtain ⟨x0, x1, x2, x3, x4, x5, x6, x7, x8, x9, x10, x11, x12, x13, x14, x15, rfl⟩ := length_eq_sixteen h
  rfl

/-- Length of the permuted slices: all of the list up to 16 elements. -/
theorem permSlices_length {α : Type} (l : List α) :
    (permSlices l).length = min l.length 16 := by
  simp [permSlices, sliceL]
  omega

/-- Every element of the permuted slices comes from the list. -/
theorem permSlices_subset {α : Type} (l : List α) : ∀ x ∈ permSlices l, x ∈ l := by
  intro x hx
  simp only [permSlices, sliceL, List.mem_append] at hx
  rcases hx with h | h | h | h | h | h | h | h <;>
    exact List.drop_subset _ _ (List.take_subset _ _ h)

/-- C5 (amended): for a kernel-encoded IPv6 address of the expected fixed
length (32 hex characters, 16 bytes), `parse_ipv6` computes exactly the
reference decoding that permutes the raw hex-character stream by the word
permutation {6,7,4,5,2,3,0,1} before byte-reversal; an input that hex-decodes
to fewer than 16 bytes fails with a format error.  (The original claim's
failure clause for longer inputs is refuted by `C5_counterexample`.) -/
theorem C5_ipv6_word_permutation :
    (∀ (enc : String) (bs : List Nat), hexDecode enc.data = .ok bs →
      bs.length = 16 → parse_ipv6 enc = refDecodeV6 enc) ∧
    (∀ (enc : String) (bs : List Nat), hexDecode enc.data = .ok bs →
      bs.length < 16 → parse_ipv6 enc = .error .valueError) := by
  constructor
  · intro enc bs h hlen
    have hrev : (bs.reverse : List Nat).length = 16 := by simpa using hlen
    simp only [parse_ipv6, refDecodeV6, h, hexDecode_permChunks h]
    rw [permSlices_reverse hlen]
  · intro enc bs h hlen
    simp only [parse_ipv6, h]
    have hl : (permSlices bs.reverse).length = min bs.length 16 := by
      rw [permSlices_length, List.length_reverse]
    rw [inet_ntop6, if_neg (by omega)]

/-- C5 counterexample: a 36-hex-character input (18 bytes), which does not
match the expected fixed length, is decoded successfully by `parse_ipv6`
instead of failing with a format error. -/
theorem C5_counterexample :
    parse_ipv6 "000000000000000000000000000000000000" = .ok "::" := by rfl

/-- C5 witness: the amended theorem applied at a concrete 32-character input
and at a concrete short input. -/
theorem C5_witness :
    parse_ipv6 "00000000000000000000000001000000" =
      refDecodeV6 "00000000000000000000000001000000" ∧
    parse_ipv6 "00" = .error .valueError := by
  constructor
  · exact C5_ipv6_word_permutation.1 "00000000000000000000000001000000"
      [0, 0, 0, 0, 0, 0, 0, 0, 0, 0, 0, 0, 1, 0, 0, 0] (by rfl) (by rfl)
  · exact C5_ipv6_word_permutation.2 "00" [0] (by rfl) (by norm_num)

/-- Splitting never yields an empty list of pieces. -/
theorem splitP_ne_nil (p : Char → Bool) (l : List Char) : splitP p l ≠ [] := by
  cases l with
  | nil => simp [splitP]
  | cons c cs =>
    simp only [splitP]
    split
    · simp
    · split <;> simp

/-- Joining after consing a character onto the first piece. -/
theorem joinC_cons2 (sep c : Char) (t : List Char) (ts : List (List Char)) :
    joinC sep ((c :: t) :: ts) = c :: joinC sep (t :: ts) := by
  cases ts <;> simp [joinC]

/-- Joining the pieces of a split restores the original text. -/
theorem joinC_splitC (sep : Char) (l : List Char) :
    joinC sep (splitC sep l) = l := by
  induction l with
  | nil => rfl
  | cons c cs ih =>
    by_cases hc : c = sep
    · subst hc
      have hsplit : splitC c (c :: cs) = [] :: splitC c cs := by
        simp [splitC, splitP]
      rw [hsplit]
      cases hs : splitC c cs with
      | nil => exact absurd hs (splitP_ne_nil _ _)
      | cons t ts =>
        rw [hs] at ih
        show ([] : List Char) ++ c :: joinC c (t :: ts) = c :: cs
        simp [ih]
    · cases hs : splitC sep cs with
      | nil => exact absurd hs (splitP_ne_nil _ _)
      | cons t ts =>
        have hsplit : splitC sep (c :: cs) = (c :: t) :: ts := by
          unfold splitC at hs ⊢
          simp only [splitP, hc, hs]
          simp
        rw [hs] at ih
        rw [hsplit, joinC_cons2, ih]

/-- Lower bound for the decimal left fold: the seed is scaled by a power of
ten per digit. -/
theorem decVal_foldl_ge (cs : List Char) (acc : Nat) :
    acc * 10 ^ cs.length ≤ cs.foldl (fun a c => 10 * a + digitVal c) acc := by
  induction cs generalizing acc with
  | nil => simp
  | cons c cs ih =>
    simp only [List.foldl_cons, List.length_cons]
    calc acc * 10 ^ (cs.length + 1) = (10 * acc) * 10 ^ cs.length := by ring
      _ ≤ (10 * acc + digitVal c) * 10 ^ cs.length :=
        Nat.mul_le_mul_right _ (by omega)
      _ ≤ cs.foldl (fun a c => 10 * a + digitVal c) (10 * acc + digitVal c) :=
        ih (10 * acc + digitVal c)

/-- Rendering the value of a valid dotted-decimal octet gives the octet
string back. -/
theorem byteDec_decVal (p : List Char) (h : validOctet p = true) :
    byteDec (decVal p) = p := by
  simp only [validOctet, Bool.and_eq_true, Bool.or_eq_true, Bool.not_eq_true',
    beq_iff_eq, beq_eq_false_iff_ne, ne_eq, List.all_eq_true,
    decide_eq_true_eq] at h
  obtain ⟨⟨⟨hne, hdig⟩, hlead⟩, hle⟩ := h
  have hdigN : ∀ x ∈ p, 48 ≤ x.toNat ∧ x.toNat ≤ 57 := by
    intro x hx
    have hx2 := hdig x hx
    simp only [isDigitC, Bool.and_eq_true, decide_eq_true_eq] at hx2
    exact hx2
  match p with
  | [] => simp at hne
  | [a] =>
    have ha := hdigN a (by simp)
    have hv : decVal [a] = digitVal a := by
      simp [decVal, List.foldl, digitVal]
    rw [hv, byteDec, if_pos (by unfold digitVal; omega)]
    rw [digitChar_digitVal a ha.1 ha.2]
  | [a, b] =>
    have ha := hdigN a (by simp)
    have hb := hdigN b (by simp)
    have hlead2 : a ≠ '0' := by
      rcases hlead with h1 | h1
      · simp at h1
      · simpa using h1
    have hager : 49 ≤ a.toNat := by
      rcases Nat.lt_or_ge a.toNat 49 with hlt | hge
      · exact absurd (char_eq_of_toNat a 48 (by omega) '0' (by decide)) hlead2
      · exact hge
    have hv : decVal [a, b] = 10 * digitVal a + digitVal b := by
      simp [decVal, List.foldl, digitVal]
    have hdva : 1 ≤ digitVal a ∧ digitVal a ≤ 9 := by unfold digitVal; omega
    have hdvb : digitVal b ≤ 9 := by unfold digitVal; omega
    rw [hv, byteDec, if_neg (by omega), if_pos (by omega)]
    have e1 : (10 * digitVal a + digitVal b) / 10 = digitVal a := by omega
    have e2 : (10 * digitVal a + digitVal b) % 10 = digitVal b := by omega
    rw [e1, e2, digitChar_digitVal a ha.1 ha.2, digitChar_digitVal b hb.1 hb.2]
  | [a, b, c] =>
    have ha := hdigN a (by simp)
    have hb := hdigN b (by simp)
    have hc := hdigN c (by simp)
    have hlead2 : a ≠ '0' := by
      rcases hlead with h1 | h1
      · simp at h1
      · simpa using h1
    have hager : 49 ≤ a.toNat := by
      rcases Nat.lt_or_ge a.toNat 49 with hlt | hge
      · exact absurd (char_eq_of_toNat a 48 (by omega) '0' (by decide)) hlead2
      · exact hge
    have hv : decVal [a, b, c] = 100 * digitVal a + 10 * digitVal b + digitVal c := by
      simp [decVal, List.foldl, digitVal]
      omega
    have hdva : 1 ≤ digitVal a ∧ digitVal a ≤ 9 := by unfold digitVal; omega
    have hdvb : digitVal b ≤ 9 := by unfold digitVal; omega
    have hdvc : digitVal c ≤ 9 := by unfold digitVal; omega
    rw [hv] at hle ⊢
    rw [byteDec, if_neg (by omega), if_neg (by omega)]
    have e1 : (100 * digitVal a + 10 * digitVal b + digitVal c) / 100 = digitVal a := by
      omega
    have e2 : (100 * digitVal a + 10 * digitVal b + digitVal c) / 10 % 10 = digitVal b := by
      omega
    have e3 : (100 * digitVal a + 10 * digitVal b + digitVal c) % 10 = digitVal c := by
      omega
    rw [e1, e2, e3, digitChar_digitVal a ha.1 ha.2, digitChar_digitVal b hb.1 hb.2,
      digitChar_digitVal c hc.1 hc.2]
  | a :: b :: c :: d :: t =>
    exfalso
    have ha := hdigN a (by simp)
    have hlead2 : a ≠ '0' := by
      rcases hlead with h1 | h1
      · simp at h1
      · simpa using h1
    have hdva : 1 ≤ digitVal a := by
      rcases Nat.lt_or_ge a.toNat 49 with hlt | hge
      · exact absurd (char_eq_of_toNat a 48 (by omega) '0' (by decide)) hlead2
      · unfold digitVal; omega
    have hdecc : decVal (a :: b :: c :: d :: t) =
        List.foldl (fun acc x => 10 * acc + digitVal x) (digitVal a) (b :: c :: d :: t) := by
      simp [decVal, List.foldl]
    have hbound := decVal_foldl_ge (b :: c :: d :: t) (digitVal a)
    have hlen : (b :: c :: d :: t).length = t.length + 3 := by simp
    have h1000 : 1000 ≤ 10 ^ (t.length + 3) := by
      calc (1000 : Nat) = 10 ^ 3 := by norm_num
        _ ≤ 10 ^ (t.length + 3) := Nat.pow_le_pow_right (by norm_num) (by omega)
    have : 1000 ≤ decVal (a :: b :: c :: d :: t) := by
      rw [hdecc]
      calc (1000 : Nat) = 1 * 1000 := by ring
        _ ≤ digitVal a * 10 ^ (t.length + 3) := Nat.mul_le_mul hdva h1000
        _ = digitVal a * 10 ^ (b :: c :: d :: t).length := by rw [hlen]
        _ ≤ _ := hbound
    omega

/-- Rebuilding a string from its character data is the identity. -/
theorem mk_data (s : String) : String.mk s.data = s := rfl

/-- Hex decoding inverts hex encoding on byte lists. -/
theorem hexDecode_hexEncode (bs : List Nat) (h : ∀ b ∈ bs, b < 256) :
    hexDecode (hexEncode bs) = .ok bs := by
  induction bs with
  | nil => rfl
  | cons b bs ih =>
    have hb : b < 256 := h b (by simp)
    have h16 : b / 16 < 16 := by omega
    have hm : b % 16 < 16 := by omega
    have ihr := ih (fun x hx => h x (by simp [hx]))
    simp only [hexEncode, hexDecode, hexVal_digitChar _ h16, hexVal_digitChar _ hm, ihr]
    have e1 : 16 * (b / 16) + b % 16 = b := by omega
    simp [e1, Except.map]

/-- Unfolding a successful `inet_pton4`: the dot-split pieces are four valid
octets and the bytes are their values. -/
theorem pton4_spec {s : String} {bs : List Nat} (h : inet_pton4 s = some bs) :
    bs = (splitC '.' s.data).map decVal ∧ (splitC '.' s.data).length = 4 ∧
      (splitC '.' s.data).all validOctet = true := by
  unfold inet_pton4 at h
  split_ifs at h with hcond
  · cases h
    exact ⟨rfl, hcond.1, hcond.2⟩

/-- Bytes produced by `inet_pton4` are below 256. -/
theorem pton4_lt {s : String} {bs : List Nat} (h : inet_pton4 s = some bs) :
    ∀ b ∈ bs, b < 256 := by
  obtain ⟨hbs, hlen, hall⟩ := pton4_spec h
  subst hbs
  intro b hb
  rcases List.mem_map.mp hb with ⟨p, hp, rfl⟩
  have hv := List.all_eq_true.mp hall p hp
  simp only [validOctet, Bool.and_eq_true, decide_eq_true_eq] at hv
  omega

/-- Printing the bytes of a parsed dotted-decimal string restores it. -/
theorem ntop4_pton4 {s : String} {bs : List Nat} (h : inet_pton4 s = some bs) :
    inet_ntop4 bs = .ok s := by
  obtain ⟨hbs, hlen, hall⟩ := pton4_spec h
  subst hbs
  unfold inet_ntop4
  rw [if_pos (by simp [hlen])]
  congr 1
  rw [List.map_map]
  have hcongr : ∀ x ∈ splitC '.' s.data, (byteDec ∘ decVal) x = id x := by
    intro x hx
    exact byteDec_decVal x (List.all_eq_true.mp hall x hx)
  rw [List.map_congr_left hcongr, List.map_id, joinC_splitC, mk_data]

/-- A hex digit value with default zero is below 16. -/
theorem hexValD_lt (c : Char) : (hexVal c).getD 0 < 16 := by
  cases hv : hexVal c with
  | none => simp
  | some v => simpa using hexVal_lt hv

/-- Upper bound for the hex left fold. -/
theorem groupVal_foldl_lt (cs : List Char) (acc : Nat) :
    cs.foldl (fun a c => 16 * a + (hexVal c).getD 0) acc < (acc + 1) * 16 ^ cs.length := by
  induction cs generalizing acc with
  | nil => simp
  | cons c cs ih =>
    simp only [List.foldl_cons, List.length_cons]
    calc cs.foldl (fun a c => 16 * a + (hexVal c).getD 0)
          (16 * acc + (hexVal c).getD 0)
        < (16 * acc + (hexVal c).getD 0 + 1) * 16 ^ cs.length := ih _
      _ ≤ (16 * (acc + 1)) * 16 ^ cs.length := by
          have hv : (hexVal c).getD 0 < 16 := hexValD_lt c
          exact Nat.mul_le_mul_right _ (by omega)
      _ = (acc + 1) * 16 ^ (cs.length + 1) := by ring

/-- The value of a colon-hex group stays below 2^16. -/
theorem groupVal_lt_of_valid {g : List Char} (h : validGroup g = true) :
    groupVal g < 65536 := by
  simp only [validGroup, Bool.and_eq_true, decide_eq_true_eq] at h
  have hb := groupVal_foldl_lt g 0
  have hp : 16 ^ g.length ≤ 16 ^ 4 := Nat.pow_le_pow_right (by norm_num) h.1.2
  unfold groupVal
  calc g.foldl (fun a c => 16 * a + (hexVal c).getD 0) 0
      < (0 + 1) * 16 ^ g.length := hb
    _ ≤ 16 ^ 4 := by simpa using hp
    _ ≤ 65536 := by norm_num

/-- Two bytes per word. -/
theorem wordBytes_length (ws : List Nat) : (wordBytes ws).length = 2 * ws.length := by
  induction ws with
  | nil => rfl
  | cons w ws ih => simp [wordBytes, ih]; omega

/-- Bytes of words below 2^16 are below 256. -/
theorem wordBytes_lt {ws : List Nat} (h : ∀ w ∈ ws, w < 65536) :
    ∀ b ∈ wordBytes ws, b < 256 := by
  induction ws with
  | nil => simp [wordBytes]
  | cons w ws ih =>
    have hw := h w (by simp)
    intro b hb
    simp only [wordBytes, List.mem_cons] at hb
    rcases hb with rfl | rfl | hb
    · omega
    · omega
    · exact ih (fun x hx => h x (by simp [hx])) b hb

/-- Sixteen bounded bytes out of a successful two-sided parse. -/
theorem ptonSides_spec {lg rg : List (List Char)} {a : List Nat}
    (h : ptonSides lg rg = some a) : a.length = 16 ∧ ∀ b ∈ a, b < 256 := by
  unfold ptonSides at h
  split_ifs at h with hcond
  · cases h
    obtain ⟨hlen, hl, hr⟩ := hcond
    constructor
    · rw [wordBytes_length]
      simp only [List.length_append, List.length_map, List.length_replicate]
      omega
    · refine wordBytes_lt ?_
      intro w hw
      simp only [List.mem_append, List.mem_replicate, List.mem_map] at hw
      rcases hw with (⟨g, hg, rfl⟩ | ⟨hn, rfl⟩) | ⟨g, hg, rfl⟩
      · exact groupVal_lt_of_valid (List.all_eq_true.mp hl g hg)
      · norm_num
      · exact groupVal_lt_of_valid (List.all_eq_true.mp hr g hg)

/-- Every successful `inet_pton6` yields sixteen bytes, all below 256. -/
theorem pton6_spec {s : String} {a : List Nat} (h : inet_pton6 s = some a) :
    a.length = 16 ∧ ∀ b ∈ a, b < 256 := by
  unfold inet_pton6 at h
  cases h2 : splitTwoColons s.data with
  | none =>
    rw [h2] at h
    replace h : (if (splitC ':' s.data).length = 8 ∧
        (splitC ':' s.data).all validGroup = true
        then some (wordBytes ((splitC ':' s.data).map groupVal)) else none) = some a := h
    split_ifs at h with hcond
    · cases h
      obtain ⟨hlen, hall⟩ := hcond
      constructor
      · rw [wordBytes_length, List.length_map, hlen]
      · refine wordBytes_lt ?_
        intro w hw
        rcases List.mem_map.mp hw with ⟨g, hg, rfl⟩
        exact groupVal_lt_of_valid (List.all_eq_true.mp hall g hg)
  | some lr =>
    obtain ⟨l, r⟩ := lr
    rw [h2] at h
    exact ptonSides_spec h

/-- C6 (amended): decoding the inverse kernel encoding restores the original
address string, unconditionally for every valid dotted-decimal IPv4 string,
and for every colon-hex IPv6 string in canonical form (the form the decoder
itself produces).  (For a valid but non-canonical IPv6 string the round trip
returns the canonical rendering instead, refuting the original claim; see
`C6_counterexample`.) -/
theorem C6_codec_roundtrip :
    (∀ (s e : String), encode_ipv4 s = some e → parse_ipv4 e = .ok s) ∧
    (∀ (s e : String) (a : List Nat), inet_pton6 s = some a → inet_ntop6 a = .ok s →
      encode_ipv6 s = some e → parse_ipv6 e = .ok s) := by
  constructor
  · intro s e he
    unfold encode_ipv4 at he
    cases hp : inet_pton4 s with
    | none => rw [hp] at he; cases he
    | some bs =>
      rw [hp] at he
      simp only [Option.map] at he
      cases he
      have hdec : hexDecode (hexEncode bs.reverse) = .ok bs.reverse :=
        hexDecode_hexEncode _ (fun b hb => pton4_lt hp b (List.mem_reverse.mp hb))
      show parse_ipv4 (String.mk (hexEncode bs.reverse)) = .ok s
      simp only [parse_ipv4, hdec]
      rw [List.reverse_reverse]
      exact ntop4_pton4 hp
  · intro s e a hp hn he
    unfold encode_ipv6 at he
    rw [hp] at he
    simp only [Option.map] at he
    cases he
    obtain ⟨hlen, hlt⟩ := pton6_spec hp
    have hdec : hexDecode (hexEncode (permSlices a).reverse) = .ok (permSlices a).reverse := by
      refine hexDecode_hexEncode _ ?_
      intro b hb
      exact hlt b (permSlices_subset a b (List.mem_reverse.mp hb))
    show parse_ipv6 (String.mk (hexEncode (permSlices a).reverse)) = .ok s
    simp only [parse_ipv6, hdec]
    rw [List.reverse_reverse, permSlices_permSlices hlen]
    exact hn

/-- C6 counterexample: the valid colon-hex string "0:0:0:0:0:0:0:1" does not
survive the round trip; decoding its kernel encoding yields the canonical
rendering "::1" instead of the original string. -/
theorem C6_counterexample :
    encode_ipv6 "0:0:0:0:0:0:0:1" = some "00000000000000000000000001000000" ∧
    parse_ipv6 "00000000000000000000000001000000" = .ok "::1" ∧
    ("::1" : String) ≠ "0:0:0:0:0:0:0:1" := by
  refine ⟨by rfl, by rfl, by decide⟩

/-- C6 witness: the amended round-trip theorem applied to "1.2.3.4" and to
the canonical "::1". -/
theorem C6_witness :
    parse_ipv4 "04030201" = .ok "1.2.3.4" ∧
    parse_ipv6 "00000000000000000000000001000000" = .ok "::1" := by
  constructor
  · exact C6_codec_roundtrip.1 "1.2.3.4" "04030201" (by rfl)
  · exact C6_codec_roundtrip.2 "::1" "00000000000000000000000001000000"
      [0, 0, 0, 0, 0, 0, 0, 0, 0, 0, 0, 0, 0, 0, 0, 1] (by rfl) (by rfl) (by rfl)

/-- The meta loop yields no dict when any original/reply meta carries a
layer-4 protocol other than tcp or udp. -/
theorem buildFlowDict_none (ts : When) (ms : List EvMeta)
    (hbad : ∃ m ∈ ms, (m.direction = "original" ∨ m.direction = "reply") ∧
      m.l4proto ≠ "tcp" ∧ m.l4proto ≠ "udp") :
    ∀ d, buildFlowDict ts ms d = none := by
  induction ms with
  | nil => simp at hbad
  | cons m ms ih =>
    intro d
    rcases hbad with ⟨m2, hm2, hdir2, ht2, hu2⟩
    rcases List.mem_cons.mp hm2 with rfl | hm2
    · rw [buildFlowDict, if_pos hdir2, if_neg (by tauto)]
    · by_cases hdir : m.direction = "original" ∨ m.direction = "reply"
      · by_cases hl4 : m.l4proto = "tcp" ∨ m.l4proto = "udp"
        · rw [buildFlowDict, if_pos hdir, if_pos hl4]
          exact ih ⟨m2, hm2, hdir2, ht2, hu2⟩ _
        · rw [buildFlowDict, if_pos hdir, if_neg hl4]
      · rw [buildFlowDict, if_neg hdir]
        exact ih ⟨m2, hm2, hdir2, ht2, hu2⟩ _

/-- C8: a well-formed "new" event containing an original or reply meta whose
layer-4 protocol is neither "tcp" nor "udp" is silently skipped by
`parse_event`: it returns no record and raises no error. -/
theorem C8_parse_event_skips_non_tcp_udp (ev : Ev)
    (htyp : ev.typ = "new")
    (hbad : ∃ m ∈ ev.metas, (m.direction = "original" ∨ m.direction = "reply") ∧
      m.l4proto ≠ "tcp" ∧ m.l4proto ≠ "udp") :
    parse_event ev = .ok none := by
  unfold parse_event
  rw [if_neg (by simp [htyp]), buildFlowDict_none ev.whenEl ev.metas hbad]

/-- C8 witness: a concrete "new" event with an icmp layer-4 protocol. -/
theorem C8_witness :
    parse_event
      { typ := "new", whenEl := ⟨2013, 1, 1, 0, 0, 0⟩,
        metas := [⟨"original", "ipv4", "icmp", "10.0.0.1", "10.0.0.2", 0, 0⟩,
          ⟨"reply", "ipv4", "icmp", "10.0.0.2", "10.0.0.1", 0, 0⟩] } = .ok none := by
  exact C8_parse_event_skips_non_tcp_udp _ rfl
    ⟨⟨"original", "ipv4", "icmp", "10.0.0.1", "10.0.0.2", 0, 0⟩, by simp, by simp⟩

/-- C3: for a "new" event whose original/reply metas pass the tcp/udp filter
and whose dict holds both directions, `parse_event` raises an
assertion-class fault exactly when the two directions are not mirror images,
and returns the original-direction record when they are. -/
theorem C3_parse_event_symmetry (ev : Ev) (d : List (String × FlowData))
    (fo fr : FlowData)
    (htyp : ev.typ = "new")
    (hd : buildFlowDict ev.whenEl ev.metas [] = some d)
    (ho : d.lookup "original" = some fo)
    (hr : d.lookup "reply" = some fr) :
    (symmetric fo fr = false → parse_event ev = .error .assertionError) ∧
    (symmetric fo fr = true → parse_event ev = .ok (some fo)) := by
  constructor <;> intro hs <;>
    simp [parse_event, htyp, hd, ho, hr, hs]

/-- C3 witness: the symmetry theorem applied to one mirror-image event and
one deliberately mismatched event. -/
theorem C3_witness :
    parse_event
      { typ := "new", whenEl := ⟨2013, 1, 1, 0, 0, 0⟩,
        metas := [⟨"original", "ipv4", "tcp", "10.0.0.1", "10.0.0.2", 5000, 443⟩,
          ⟨"reply", "ipv4", "tcp", "10.0.0.2", "10.0.0.1", 443, 5000⟩] } =
      .ok (some ⟨⟨2013, 1, 1, 0, 0, 0⟩, "ipv4/tcp", "10.0.0.1", "10.0.0.2", 5000, 443⟩) ∧
    parse_event
      { typ := "new", whenEl := ⟨2013, 1, 1, 0, 0, 0⟩,
        metas := [⟨"original", "ipv4", "tcp", "10.0.0.1", "10.0.0.2", 5000, 443⟩,
          ⟨"reply", "ipv4", "tcp", "10.0.0.9", "10.0.0.1", 443, 5000⟩] } =
      .error .assertionError := by
  constructor
  · exact (C3_parse_event_symmetry
      { typ := "new", whenEl := ⟨2013, 1, 1, 0, 0, 0⟩,
        metas := [⟨"original", "ipv4", "tcp", "10.0.0.1", "10.0.0.2", 5000, 443⟩,
          ⟨"reply", "ipv4", "tcp", "10.0.0.2", "10.0.0.1", 443, 5000⟩] }
      [("original", ⟨⟨2013, 1, 1, 0, 0, 0⟩, "ipv4/tcp", "10.0.0.1", "10.0.0.2", 5000, 443⟩),
        ("reply", ⟨⟨2013, 1, 1, 0, 0, 0⟩, "ipv4/tcp", "10.0.0.2", "10.0.0.1", 443, 5000⟩)]
      ⟨⟨2013, 1, 1, 0, 0, 0⟩, "ipv4/tcp", "10.0.0.1", "10.0.0.2", 5000, 443⟩
      ⟨⟨2013, 1, 1, 0, 0, 0⟩, "ipv4/tcp", "10.0.0.2", "10.0.0.1", 443, 5000⟩
      rfl (by rfl) (by rfl) (by rfl)).2 (by rfl)
  · exact (C3_parse_event_symmetry
      { typ := "new", whenEl := ⟨2013, 1, 1, 0, 0, 0⟩,
        metas := [⟨"original", "ipv4", "tcp", "10.0.0.1", "10.0.0.2", 5000, 443⟩,
          ⟨"reply", "ipv4", "tcp", "10.0.0.9", "10.0.0.1", 443, 5000⟩] }
      [("original", ⟨⟨2013, 1, 1, 0, 0, 0⟩, "ipv4/tcp", "10.0.0.1", "10.0.0.2", 5000, 443⟩),
        ("reply", ⟨⟨2013, 1, 1, 0, 0, 0⟩, "ipv4/tcp", "10.0.0.9", "10.0.0.1", 443, 5000⟩)]
      ⟨⟨2013, 1, 1, 0, 0, 0⟩, "ipv4/tcp", "10.0.0.1", "10.0.0.2", 5000, 443⟩
      ⟨⟨2013, 1, 1, 0, 0, 0⟩, "ipv4/tcp", "10.0.0.9", "10.0.0.1", 443, 5000⟩
      rfl (by rfl) (by rfl) (by rfl)).1 (by rfl)

/-- The row scan succeeds exactly when every row parses. -/
theorem scanRows_none_iff (v4 : Bool) (rows : List String) :
    (scanRows v4 rows).2 = none ↔ ∀ r ∈ rows, ∃ kv, parseRow v4 r = .ok kv := by
  induction rows with
  | nil => simp [scanRows]
  | cons r rs ih =>
    cases hp : parseRow v4 r with
    | error e =>
      simp only [scanRows, hp]
      constructor
      · intro h
        cases h
      · intro h
        rcases h r (by simp) with ⟨kv, hkv⟩
        rw [hp] at hkv
        cases hkv
    | ok kv =>
      simp only [scanRows, hp]
      constructor
      · intro h
        intro r2 hr2
        rcases List.mem_cons.mp hr2 with rfl | hr2
        · exact ⟨kv, hp⟩
        · exact (ih.mp h) r2 hr2
      · intro h
        exact ih.mpr (fun r2 hr2 => h r2 (by simp [hr2]))

/-- On a fully successful scan the yields are, in order, exactly the per-row
parses. -/
theorem scanRows_ok (v4 : Bool) (rows : List String)
    (h : (scanRows v4 rows).2 = none) :
    (scanRows v4 rows).1 = rows.filterMap (fun r => (parseRow v4 r).toOption) := by
  induction rows with
  | nil => rfl
  | cons r rs ih =>
    cases hp : parseRow v4 r with
    | error e =>
      rw [scanRows, hp] at h
      cases h
    | ok kv =>
      rw [scanRows, hp] at h ⊢
      simp only [List.filterMap_cons, hp, Except.toOption]
      rw [ih h]
      rfl

/-- C7: the connection-table scan drops the header line and feeds every
remaining row, in order, to the fixed-column row parser (`parseRow`: split on
whitespace, fields 1, 2 and 9, endpoints as address and base-16 port decoded
by the family codec, sorted into the canonical pair); the scan completes
without error exactly when every row parses, so a row failure propagates
instead of being skipped, and on success the yields are exactly the per-row
results. -/
theorem C7_get_table_sk_scan (proto path hdr : String) (fs : String → List String)
    (rows : List String)
    (hp : proto_conns.lookup proto = some path)
    (hf : fs path = hdr :: rows) :
    (get_table_sk proto fs = scanRows (isV4proto proto) rows) ∧
    ((get_table_sk proto fs).2 = none ↔
      ∀ r ∈ rows, ∃ kv, parseRow (isV4proto proto) r = .ok kv) ∧
    ((get_table_sk proto fs).2 = none →
      (get_table_sk proto fs).1 =
        rows.filterMap (fun r => (parseRow (isV4proto proto) r).toOption)) := by
  have h1 : get_table_sk proto fs = scanRows (isV4proto proto) rows := by
    simp only [get_table_sk, hp, hf]
  refine ⟨h1, ?_, ?_⟩
  · rw [h1]
    exact scanRows_none_iff _ rows
  · rw [h1]
    exact scanRows_ok _ rows

/-- C7 witness: the scan theorem applied to a concrete ipv4/tcp table with a
header and one row, evaluated to the decoded canonical pair. -/
theorem C7_witness :
    get_table_sk "ipv4/tcp" (fun p => if p = "/proc/net/tcp" then
        ["  sl  local_address rem_address st uid inode",
          "   0: 0100007F:1F40 0200007F:01BB 01 00000000:00000000 00:00000000 00000000 0 0 1234 1"]
      else []) =
      ([((("127.0.0.1", 8000), ("127.0.0.2", 443)), "1234")], none) := by
  have h := C7_get_table_sk_scan "ipv4/tcp" "/proc/net/tcp"
    "  sl  local_address rem_address st uid inode"
    (fun p => if p = "/proc/net/tcp" then
        ["  sl  local_address rem_address st uid inode",
          "   0: 0100007F:1F40 0200007F:01BB 01 00000000:00000000 00:00000000 00000000 0 0 1234 1"]
      else [])
    ["   0: 0100007F:1F40 0200007F:01BB 01 00000000:00000000 00:00000000 00000000 0 0 1234 1"]
    (by rfl) (by rfl)
  rw [h.1]
  rfl

/-- Skipping ENOENT entries, the first loop collects exactly the readable
links in order. -/
theorem collectLinks_ok (entries : List FdEntry)
    (h : ∀ e ∈ entries, e.link = .error ENOENT ∨ ∃ l, e.link = .ok l) :
    collectLinks entries = .ok (entries.filterMap (fun e =>
      match e.link with
      | .ok l => some (e.pid, l)
      | .error _ => none)) := by
  induction entries with
  | nil => rfl
  | cons e es ih =>
    have ihe := ih (fun x hx => h x (by simp [hx]))
    rcases h e (by simp) with he | ⟨l, he⟩
    · have hstep : collectLinks (e :: es) = collectLinks es := by
        simp only [collectLinks, he]
        simp
      rw [hstep, ihe]
      simp [List.filterMap_cons, he]
    · have hstep : collectLinks (e :: es) =
          (collectLinks es).map (fun rest => (e.pid, l) :: rest) := by
        simp only [collectLinks, he]
      rw [hstep, ihe]
      simp [List.filterMap_cons, he, Except.map]

/-- A readlink failure with an errno other than ENOENT, after well-behaved
entries, aborts the first loop with that OSError. -/
theorem collectLinks_err (pre : List FdEntry) (e : FdEntry) (post : List FdEntry)
    (n : Nat) (hl : e.link = .error n) (hn : n ≠ ENOENT)
    (hpre : ∀ e2 ∈ pre, e2.link = .error ENOENT ∨ ∃ l, e2.link = .ok l) :
    collectLinks (pre ++ e :: post) = .error (.osError n) := by
  induction pre with
  | nil =>
    rw [List.nil_append]
    simp only [collectLinks, hl]
    rw [if_pos hn]
  | cons p pre ih =>
    have ihp := ih (fun x hx => hpre x (by simp [hx]))
    rcases hpre p (by simp) with hp | ⟨l, hp⟩
    · rw [List.cons_append]
      have hstep : collectLinks (p :: (pre ++ e :: post)) =
          collectLinks (pre ++ e :: post) := by
        simp only [collectLinks, hp]
        simp
      rw [hstep, ihp]
    · rw [List.cons_append]
      have hstep : collectLinks (p :: (pre ++ e :: post)) =
          (collectLinks (pre ++ e :: post)).map (fun rest => (p.pid, l) :: rest) := by
        simp only [collectLinks, hp]
      rw [hstep, ihp]
      rfl

/-- Composing the two loops of the scan entrywise. -/
theorem filterMap_sock (es : List FdEntry) :
    (es.filterMap (fun e => match e.link with
      | .ok l => some (e.pid, l)
      | .error _ => none)).filterMap
        (fun pl => (sockMatch pl.2).map (fun inode => (inode, pl.1))) =
    es.filterMap (fun e => match e.link with
      | .ok l => (sockMatch l).map (fun inode => (inode, e.pid))
      | .error _ => none) := by
  induction es with
  | nil => rfl
  | cons e es ih =>
    cases he : e.link with
    | error n =>
      simp only [List.filterMap_cons, he]
      exact ih
    | ok l =>
      simp only [List.filterMap_cons, he]
      cases hsm : sockMatch l with
      | none =>
        simp only [hsm, Option.map_none']
        exact ih
      | some inode =>
        simp only [hsm, Option.map_some', List.filterMap_cons, ih]

/-- C9: in the socket-owner scan, entries whose readlink fails with ENOENT
are silently omitted while any other errno propagates; when every readlink
either succeeds or fails with ENOENT, the yields are exactly the socket
links, each as the inode text from the bracketed socket pattern paired with
the owning pid. -/
theorem C9_get_table_links_races (entries : List FdEntry) :
    ((∀ e ∈ entries, e.link = .error ENOENT ∨ ∃ l, e.link = .ok l) →
      get_table_links entries = .ok (entries.filterMap (fun e =>
        match e.link with
        | .ok l => (sockMatch l).map (fun inode => (inode, e.pid))
        | .error _ => none))) ∧
    (∀ (pre : List FdEntry) (e : FdEntry) (post : List FdEntry) (n : Nat),
      entries = pre ++ e :: post → e.link = .error n → n ≠ ENOENT →
      (∀ e2 ∈ pre, e2.link = .error ENOENT ∨ ∃ l, e2.link = .ok l) →
      get_table_links entries = .error (.osError n)) := by
  constructor
  · intro h
    unfold get_table_links
    rw [collectLinks_ok entries h]
    exact congrArg Except.ok (filterMap_sock entries)
  · intro pre e post n hsplit hl hn hpre
    subst hsplit
    unfold get_table_links
    rw [collectLinks_err pre e post n hl hn hpre]

/-- C9 witness: the scan theorem applied to concrete entry lists exercising
both the ENOENT-skip path and the propagating-errno path. -/
theorem C9_witness :
    get_table_links [⟨42, 3, .ok "socket:[1234]"⟩, ⟨42, 4, .ok "/dev/null"⟩,
        ⟨43, 5, .error 2⟩] = .ok [("1234", 42)] ∧
    get_table_links [⟨42, 3, .ok "socket:[1234]"⟩, ⟨43, 5, .error 13⟩] =
      .error (.osError 13) := by
  constructor
  · have h := (C9_get_table_links_races
      [⟨42, 3, .ok "socket:[1234]"⟩, ⟨42, 4, .ok "/dev/null"⟩, ⟨43, 5, .error 2⟩]).1
      (by intro e he; fin_cases he <;> simp [ENOENT])
    rw [h]
    rfl
  · exact (C9_get_table_links_races
      [⟨42, 3, .ok "socket:[1234]"⟩, ⟨43, 5, .error 13⟩]).2
      [⟨42, 3, .ok "socket:[1234]"⟩] ⟨43, 5, .error 13⟩ [] 13 (by rfl) (by rfl)
      (by norm_num [ENOENT]) (by intro e he; fin_cases he <;> simp)

/-- C4 (code bug): for a pid whose proc files are gone (ENOENT), the
resolver raises instead of returning the sentinel record.  The file read
fails with a Python 2 `IOError`, which the `except OSError` clause does not
catch, so it propagates; and even on the `os.stat` `OSError` path the
handler evaluates the unbound name `err`, raising a `NameError`.  Either
way `FlowInfo(pid)` faults rather than producing the "unknown" sentinel. -/
theorem C4_resolver_process_gone_faults :
    FlowInfo_new (some 42) ⟨fun _ _ => .error 2, fun _ => .error 2⟩ =
      .error (.ioError 2) ∧
    FlowInfo_new (some 42) ⟨fun _ _ => .ok "x", fun _ => .error 2⟩ =
      .error .nameError ∧
    .error (.ioError 2) ≠ (.ok nxInfo : Except PyErr FlowInfo) := by
  refine ⟨rfl, rfl, by simp⟩

/-- The service loop reports no match when every line splits into at least
two fields and none has a "name="-prefixed second field. -/
theorem serviceScan_none (lines : List (List Char))
    (h : ∀ line ∈ lines, ∃ f2, (splitC ':' line).get? 1 = some f2 ∧
      ¬ ("name=".data.isPrefixOf f2 = true)) :
    serviceScan lines = .ok none := by
  induction lines with
  | nil => rfl
  | cons line rest ih =>
    rcases h line (by simp) with ⟨f2, hf2, hpre⟩
    simp only [serviceScan, hf2]
    rw [if_neg hpre]
    exact ih (fun l2 hl2 => h l2 (by simp [hl2]))

/-- The service loop returns the third field of the first matching line. -/
theorem serviceScan_found (pre : List (List Char)) (line : List Char)
    (post : List (List Char)) (f2 f3 : List Char)
    (hpre : ∀ l2 ∈ pre, ∃ g2, (splitC ':' l2).get? 1 = some g2 ∧
      ¬ ("name=".data.isPrefixOf g2 = true))
    (hf2 : (splitC ':' line).get? 1 = some f2)
    (hmatch : "name=".data.isPrefixOf f2 = true)
    (hf3 : (splitC ':' line).get? 2 = some f3) :
    serviceScan (pre ++ line :: post) = .ok (some f3) := by
  induction pre with
  | nil =>
    rw [List.nil_append]
    simp only [serviceScan, hf2]
    rw [if_pos hmatch, hf3]
  | cons l2 pre ih =>
    rcases hpre l2 (by simp) with ⟨g2, hg2, hgpre⟩
    rw [List.cons_append]
    simp only [serviceScan, hg2]
    rw [if_neg hgpre]
    exact ih (fun l3 hl3 => hpre l3 (by simp [hl3]))

/-- C10 (amended): when the resolver reads the cgroup file successfully and
every scanned line has at least two colon-delimited fields, then: with no
line whose second field has "name=" as a prefix, the returned service field
is the raw cgroup text (not the "-" placeholder); and when the first line
with a "name="-prefixed second field (prefix match, not equality) has a
third field, that third field is returned as the service label.  (A line
without a colon, or a matching line without a third field, faults with an
IndexError instead: see `C10_counterexample`.) -/
theorem C10_service_label (p : Nat) (fsys : ProcFS) (cml cgr : String)
    (uid gid : Nat)
    (hc : fsys.file p "cmdline" = .ok cml)
    (hg : fsys.file p "cgroup" = .ok cgr)
    (hs : fsys.statDir p = .ok (uid, gid))
    (hne : cgr ≠ "-") :
    ((∀ line ∈ splitlines cgr.data, ∃ f2, (splitC ':' line).get? 1 = some f2 ∧
        ¬ ("name=".data.isPrefixOf f2 = true)) →
      ∃ info, FlowInfo_new (some p) fsys = .ok info ∧ info.service = .s cgr) ∧
    (∀ (pre : List (List Char)) (line : List Char) (post : List (List Char))
        (f2 f3 : List Char),
      splitlines cgr.data = pre ++ line :: post →
      (∀ l2 ∈ pre, ∃ g2, (splitC ':' l2).get? 1 = some g2 ∧
        ¬ ("name=".data.isPrefixOf g2 = true)) →
      (splitC ':' line).get? 1 = some f2 →
      "name=".data.isPrefixOf f2 = true →
      (splitC ':' line).get? 2 = some f3 →
      ∃ info, FlowInfo_new (some p) fsys = .ok info ∧
        info.service = .s (String.mk f3)) := by
  constructor
  · intro hall
    have hscan := serviceScan_none (splitlines cgr.data) hall
    refine ⟨⟨if p = 0 then .s "?" else .n p, .n uid, .n gid,
      .s (if cml = "-" then cml else String.mk (pyStrip (nulToSpace cml.data))),
      .s cgr⟩, ?_, rfl⟩
    simp only [FlowInfo_new, pid_info, hc, hg, hs, if_neg hne, hscan]
  · intro pre line post f2 f3 hsplit hpre hf2 hmatch hf3
    have hscan : serviceScan (splitlines cgr.data) = .ok (some f3) := by
      rw [hsplit]
      exact serviceScan_found pre line post f2 f3 hpre hf2 hmatch hf3
    refine ⟨⟨if p = 0 then .s "?" else .n p, .n uid, .n gid,
      .s (if cml = "-" then cml else String.mk (pyStrip (nulToSpace cml.data))),
      .s (String.mk f3)⟩, ?_, rfl⟩
    simp only [FlowInfo_new, pid_info, hc, hg, hs, if_neg hne, hscan]

/-- C10 counterexample: a successfully read cgroup file whose single line
has no colon (so no second field, in particular none with a "name=" prefix)
makes the construction fault with an IndexError instead of returning the raw
contents as the service field. -/
theorem C10_counterexample :
    FlowInfo_new (some 5)
      ⟨fun _ e => if e = "cmdline" then .ok "foo" else .ok "abc",
        fun _ => .ok (1000, 1000)⟩ = .error .indexError := by rfl

/-- C10 witness: the amended theorem applied to a matching and a
non-matching concrete cgroup file. -/
theorem C10_witness :
    (∃ info, FlowInfo_new (some 5)
      ⟨fun _ e => if e = "cmdline" then .ok "curl" else .ok "1:cpu:/a\n2:mem:/b",
        fun _ => .ok (1000, 1000)⟩ = .ok info ∧
      info.service = .s "1:cpu:/a\n2:mem:/b") ∧
    (∃ info, FlowInfo_new (some 5)
      ⟨fun _ e => if e = "cmdline" then .ok "curl" else .ok "1:name=systemd:/mysvc\n2:cpu:/x",
        fun _ => .ok (1000, 1000)⟩ = .ok info ∧
      info.service = .s "/mysvc") := by
  constructor
  · exact (C10_service_label 5
      ⟨fun _ e => if e = "cmdline" then .ok "curl" else .ok "1:cpu:/a\n2:mem:/b",
        fun _ => .ok (1000, 1000)⟩
      "curl" "1:cpu:/a\n2:mem:/b" 1000 1000 rfl rfl rfl (by decide)).1
      (by decide)
  · exact (C10_service_label 5
      ⟨fun _ e => if e = "cmdline" then .ok "curl" else .ok "1:name=systemd:/mysvc\n2:cpu:/x",
        fun _ => .ok (1000, 1000)⟩
      "curl" "1:name=systemd:/mysvc\n2:cpu:/x" 1000 1000 rfl rfl rfl (by decide)).2
      [] "1:name=systemd:/mysvc".data ["2:cpu:/x".data]
      "name=systemd".data "/mysvc".data (by decide) (by simp) (by decide)
      (by decide) (by decide)

/-- Looking up the inserted key finds the inserted value. -/
theorem lookup_dinsert {K V : Type} [DecidableEq K] (d : List (K × V)) (k : K) (v : V) :
    (dinsert d k v).lookup k = some v := by
  unfold dinsert
  induction d with
  | nil => simp [List.lookup]
  | cons kv d ih =>
    by_cases h : kv.1 = k
    · simpa [List.filter_cons, h] using ih
    · rcases kv with ⟨a, b⟩
      simp only at h
      simp only [List.filter_cons, decide_eq_true_eq, ne_eq, h, not_false_iff, if_pos,
        List.cons_append, List.lookup]
      rw [beq_eq_false_iff_ne.mpr (fun hk => h hk.symm)]
      exact ih

/-- Removing a key makes its lookup miss. -/
theorem lookup_dremove {K V : Type} [DecidableEq K] (d : List (K × V)) (k : K) :
    (dremove d k).lookup k = none := by
  unfold dremove
  induction d with
  | nil => simp [List.lookup]
  | cons kv d ih =>
    by_cases h : kv.1 = k
    · simpa [List.filter_cons, h] using ih
    · rcases kv with ⟨a, b⟩
      simp only at h
      simp only [List.filter_cons, decide_eq_true_eq, ne_eq, h, not_false_iff, if_pos,
        List.lookup]
      rw [beq_eq_false_iff_ne.mpr (fun hk => h hk.symm)]
      exact ih

/-- C1: when the flow's endpoint pair is absent from the sk cache and from
the freshly scanned table, `get_flow_info` performs exactly one wholesale
connection-table rebuild, retries once, and returns the unknown sentinel
with no further scan of any kind; and when the socket id is absent from the
links cache and from the freshly scanned fd links, it performs exactly one
fd-link rebuild, retries once, and returns the sentinel likewise. -/
theorem C1_single_rebuild_then_sentinel :
    (∀ (flow : FlowData) (cache0 : GCache) (env : Env),
      ((cache0.lookup flow.proto).getD emptyPC).sk.lookup
        (sortPair (flow.src, flow.sport) (flow.dst, flow.dport)) = none →
      (get_table_sk flow.proto env.fs).2 = none →
      (buildD (get_table_sk flow.proto env.fs).1).lookup
        (sortPair (flow.src, flow.sport) (flow.dst, flow.dport)) = none →
      get_flow_info flow cache0 env =
        ⟨.ok nxInfo, dinsert cache0 flow.proto
          ⟨buildD (get_table_sk flow.proto env.fs).1,
            ((cache0.lookup flow.proto).getD emptyPC).links,
            ((cache0.lookup flow.proto).getD emptyPC).info⟩, 1, 0, 0⟩) ∧
    (∀ (flow : FlowData) (cache0 : GCache) (env : Env) (sk : String)
        (lst : List (String × Nat)),
      ((cache0.lookup flow.proto).getD emptyPC).sk.lookup
        (sortPair (flow.src, flow.sport) (flow.dst, flow.dport)) = some sk →
      ((cache0.lookup flow.proto).getD emptyPC).links.lookup sk = none →
      get_table_links env.fds = .ok lst →
      (buildD lst).lookup sk = none →
      get_flow_info flow cache0 env =
        ⟨.ok nxInfo, dinsert cache0 flow.proto
          ⟨((cache0.lookup flow.proto).getD emptyPC).sk, buildD lst,
            ((cache0.lookup flow.proto).getD emptyPC).info⟩, 0, 1, 0⟩) := by
  constructor
  · intro flow cache0 env h1 h2 h3
    cases hscan : get_table_sk flow.proto env.fs with
    | mk rows e2 =>
      rw [hscan] at h2 h3
      simp only at h2 h3
      subst h2
      simp only [get_flow_info, h1, Option.isSome_none, Bool.false_eq_true, if_false,
        hscan, skRetry, h3]
  · intro flow cache0 env sk lst h1 h2 h3 h4
    simp only [get_flow_info, h1, Option.isSome_some, if_true, skRetry, linksStage,
      h2, Option.isSome_none, Bool.false_eq_true, if_false, h3, linksRetry, h4]

/-- C1 witness: both stages exercised on concrete flows, caches and
environments. -/
theorem C1_witness :
    get_flow_info ⟨⟨2013, 1, 1, 0, 0, 0⟩, "ipv4/tcp", "10.0.0.1", "10.0.0.2", 5000, 443⟩
      [] ⟨fun _ => [], [], ⟨fun _ _ => .error 2, fun _ => .error 2⟩⟩ =
      ⟨.ok nxInfo, [("ipv4/tcp", ⟨[], [], []⟩)], 1, 0, 0⟩ ∧
    get_flow_info ⟨⟨2013, 1, 1, 0, 0, 0⟩, "ipv4/tcp", "10.0.0.1", "10.0.0.2", 5000, 443⟩
      [("ipv4/tcp", ⟨[((("10.0.0.1", 5000), ("10.0.0.2", 443)), "7")], [], []⟩)]
      ⟨fun _ => [], [], ⟨fun _ _ => .error 2, fun _ => .error 2⟩⟩ =
      ⟨.ok nxInfo, [("ipv4/tcp",
        ⟨[((("10.0.0.1", 5000), ("10.0.0.2", 443)), "7")], [], []⟩)], 0, 1, 0⟩ := by
  constructor
  · exact C1_single_rebuild_then_sentinel.1
      ⟨⟨2013, 1, 1, 0, 0, 0⟩, "ipv4/tcp", "10.0.0.1", "10.0.0.2", 5000, 443⟩
      [] ⟨fun _ => [], [], ⟨fun _ _ => .error 2, fun _ => .error 2⟩⟩
      (by rfl) (by rfl) (by rfl)
  · exact C1_single_rebuild_then_sentinel.2
      ⟨⟨2013, 1, 1, 0, 0, 0⟩, "ipv4/tcp", "10.0.0.1", "10.0.0.2", 5000, 443⟩
      [("ipv4/tcp", ⟨[((("10.0.0.1", 5000), ("10.0.0.2", 443)), "7")], [], []⟩)]
      ⟨fun _ => [], [], ⟨fun _ _ => .error 2, fun _ => .error 2⟩⟩ "7" []
      (by rfl) (by rfl) (by rfl) (by rfl)

/-- C2: at the process-info stage with a cached (fingerprint, info) entry for
the pid, a fresh start-time fingerprint that differs evicts the entry,
re-resolves the pid, and returns the freshly resolved record, storing it
under the fresh fingerprint; an equal fingerprint returns the cached record
without invoking the resolver. -/
theorem C2_fingerprint_eviction (flow : FlowData) (cache0 : GCache) (env : Env)
    (sk : String) (pid : Nat) (statstr : String) (f21 : List Char)
    (ts1 ts2 : Nat) (info1 : FlowInfo)
    (h1 : ((cache0.lookup flow.proto).getD emptyPC).sk.lookup
      (sortPair (flow.src, flow.sport) (flow.dst, flow.dport)) = some sk)
    (h2 : ((cache0.lookup flow.proto).getD emptyPC).links.lookup sk = some pid)
    (h3 : env.proc.file pid "stat" = .ok statstr)
    (h4 : (wsTokens statstr.data).get? 21 = some f21)
    (h5 : parseDecInt f21 = .ok ts2)
    (h6 : ((cache0.lookup flow.proto).getD emptyPC).info.lookup pid = some (ts1, info1)) :
    (ts2 ≠ ts1 → ∀ info2, FlowInfo_new (some pid) env.proc = .ok info2 →
      (get_flow_info flow cache0 env).res = .ok info2 ∧
      (get_flow_info flow cache0 env).resolves = 1 ∧
      (((get_flow_info flow cache0 env).cache.lookup flow.proto).getD
        emptyPC).info.lookup pid = some (ts2, info2)) ∧
    (ts2 = ts1 →
      (get_flow_info flow cache0 env).res = .ok info1 ∧
      (get_flow_info flow cache0 env).resolves = 0) := by
  have hstat : pid_info env.proc pid "stat" = .ok statstr := by
    unfold pid_info
    rw [h3]
  constructor
  · intro hne info2 hres
    have hmain : get_flow_info flow cache0 env =
        ⟨.ok info2, dinsert cache0 flow.proto
          ⟨((cache0.lookup flow.proto).getD emptyPC).sk,
            ((cache0.lookup flow.proto).getD emptyPC).links,
            dinsert (dremove ((cache0.lookup flow.proto).getD emptyPC).info pid)
              pid (ts2, info2)⟩, 0, 0, 1⟩ := by
      simp only [get_flow_info, h1, Option.isSome_some, if_true, skRetry, linksStage,
        h2, linksRetry, infoStage, hstat, h4, h5, h6, if_pos hne, hres]
    rw [hmain]
    refine ⟨rfl, rfl, ?_⟩
    simp only [lookup_dinsert]
    exact lookup_dinsert _ pid (ts2, info2)
  · intro heq
    have hmain : get_flow_info flow cache0 env =
        ⟨.ok info1, dinsert cache0 flow.proto
          ⟨((cache0.lookup flow.proto).getD emptyPC).sk,
            ((cache0.lookup flow.proto).getD emptyPC).links,
            ((cache0.lookup flow.proto).getD emptyPC).info⟩, 0, 0, 0⟩ := by
      simp only [get_flow_info, h1, Option.isSome_some, if_true, skRetry, linksStage,
        h2, linksRetry, infoStage, hstat, h4, h5, h6, heq]
      simp
    rw [hmain]
    exact ⟨rfl, rfl⟩

/-- C2 witness: the fingerprint theorem applied to a concrete cache whose
entry for pid 42 carries fingerprint 100, against a process whose stat file
reports 200 (mismatch: fresh resolve) and 100 (match: cached record). -/
theorem C2_witness :
    ((get_flow_info ⟨⟨2013, 1, 1, 0, 0, 0⟩, "ipv4/tcp", "10.0.0.1", "10.0.0.2", 5000, 443⟩
      [("ipv4/tcp", ⟨[((("10.0.0.1", 5000), ("10.0.0.2", 443)), "7")], [("7", 42)],
        [(42, (100, ⟨.n 42, .n 1000, .n 1000, .s "old", .s "/old"⟩))]⟩)]
      ⟨fun _ => [], [], ⟨fun _ e =>
        if e = "stat" then .ok "0 0 0 0 0 0 0 0 0 0 0 0 0 0 0 0 0 0 0 0 0 200"
        else if e = "cmdline" then .ok "curl" else .ok "1:name=x:/svc",
        fun _ => .ok (1000, 1000)⟩⟩).res =
      .ok ⟨.n 42, .n 1000, .n 1000, .s "curl", .s "/svc"⟩) ∧
    ((get_flow_info ⟨⟨2013, 1, 1, 0, 0, 0⟩, "ipv4/tcp", "10.0.0.1", "10.0.0.2", 5000, 443⟩
      [("ipv4/tcp", ⟨[((("10.0.0.1", 5000), ("10.0.0.2", 443)), "7")], [("7", 42)],
        [(42, (100, ⟨.n 42, .n 1000, .n 1000, .s "old", .s "/old"⟩))]⟩)]
      ⟨fun _ => [], [], ⟨fun _ e =>
        if e = "stat" then .ok "0 0 0 0 0 0 0 0 0 0 0 0 0 0 0 0 0 0 0 0 0 100"
        else if e = "cmdline" then .ok "curl" else .ok "1:name=x:/svc",
        fun _ => .ok (1000, 1000)⟩⟩).res =
      .ok ⟨.n 42, .n 1000, .n 1000, .s "old", .s "/old"⟩) := by
  constructor
  · exact ((C2_fingerprint_eviction
      ⟨⟨2013, 1, 1, 0, 0, 0⟩, "ipv4/tcp", "10.0.0.1", "10.0.0.2", 5000, 443⟩
      [("ipv4/tcp", ⟨[((("10.0.0.1", 5000), ("10.0.0.2", 443)), "7")], [("7", 42)],
        [(42, (100, ⟨.n 42, .n 1000, .n 1000, .s "old", .s "/old"⟩))]⟩)]
      ⟨fun _ => [], [], ⟨fun _ e =>
        if e = "stat" then .ok "0 0 0 0 0 0 0 0 0 0 0 0 0 0 0 0 0 0 0 0 0 200"
        else if e = "cmdline" then .ok "curl" else .ok "1:name=x:/svc",
        fun _ => .ok (1000, 1000)⟩⟩
      "7" 42 "0 0 0 0 0 0 0 0 0 0 0 0 0 0 0 0 0 0 0 0 0 200"
      "200".data 100 200 ⟨.n 42, .n 1000, .n 1000, .s "old", .s "/old"⟩
      (by rfl) (by rfl) (by rfl) (by rfl) (by rfl) (by rfl)).1
      (by norm_num) ⟨.n 42, .n 1000, .n 1000, .s "curl", .s "/svc"⟩ (by rfl)).1
  · exact ((C2_fingerprint_eviction
      ⟨⟨2013, 1, 1, 0, 0, 0⟩, "ipv4/tcp", "10.0.0.1", "10.0.0.2", 5000, 443⟩
      [("ipv4/tcp", ⟨[((("10.0.0.1", 5000), ("10.0.0.2", 443)), "7")], [("7", 42)],
        [(42, (100, ⟨.n 42, .n 1000, .n 1000, .s "old", .s "/old"⟩))]⟩)]
      ⟨fun _ => [], [], ⟨fun _ e =>
        if e = "stat" then .ok "0 0 0 0 0 0 0 0 0 0 0 0 0 0 0 0 0 0 0 0 0 100"
        else if e = "cmdline" then .ok "curl" else .ok "1:name=x:/svc",
        fun _ => .ok (1000, 1000)⟩⟩
      "7" 42 "0 0 0 0 0 0 0 0 0 0 0 0 0 0 0 0 0 0 0 0 0 100"
      "100".data 100 100 ⟨.n 42, .n 1000, .n 1000, .s "old", .s "/old"⟩
      (by rfl) (by rfl) (by rfl) (by rfl) (by rfl) (by rfl)).2 rfl).1

end Nfct
